import Mathlib

/-!
# CEP lookup race (main.go)

A shallow embedding of `main.go`: the two source adapters
(`fetchFromBrasilAPI`, `fetchFromViaCEP`), the two fetch goroutines started by
`main`, and the single `select` over `resultChan` and `time.After(1 * time.Second)`.

The outside world is explicit data:

* the HTTP transport is a function from the URL to the result of `client.Get`;
* a response body is the result of `ioutil.ReadAll` and, when it was read, the
  JSON text it holds (or the fact that it is not JSON text);
* a run of the race is the order in which the goroutines reach their last
  statement and the timer channel delivers.
-/

namespace Multithreading

/-! ## Data model (main.go lines 12-37) -/

/-- Go struct `BrasilAPIResponse`, with the JSON keys of its tags
`cep`, `state`, `city`, `neighborhood`, `street`. -/
structure BrasilAPIResponse where
  Cep : String := ""
  State : String := ""
  City : String := ""
  Neighborhood : String := ""
  Street : String := ""
  deriving DecidableEq, Repr, Inhabited

/-- Go struct `ViaCEPResponse`, with the JSON keys of its tags
`cep`, `logradouro`, `bairro`, `localidade`, `uf`. -/
structure ViaCEPResponse where
  Cep : String := ""
  Logradouro : String := ""
  Bairro : String := ""
  Localidade : String := ""
  Uf : String := ""
  deriving DecidableEq, Repr, Inhabited

/-- Go struct `Address`, the common shape; `Source` names the API that answered. -/
structure Address where
  Cep : String := ""
  State : String := ""
  City : String := ""
  Neighborhood : String := ""
  Street : String := ""
  Source : String := ""
  deriving DecidableEq, Repr, Inhabited

/-! ## The transport and `encoding/json`, as far as the adapters use them -/

/-- A JSON text after the syntax check: what `json.Unmarshal` walks over. A string
value is the Go string it denotes, an object keeps its members in source order. -/
inductive JSON where
  | null
  | bool (b : Bool)
  | number (literal : String)
  | string (s : String)
  | array (items : List JSON)
  | object (members : List (String × JSON))

/-- The name `encoding/json` gives a value's kind in an `UnmarshalTypeError`. -/
def JSON.kind : JSON → String
  | .null => "null"
  | .bool _ => "bool"
  | .number _ => "number"
  | .string _ => "string"
  | .array _ => "array"
  | .object _ => "object"

/-- A Go `error` value that is not nil: where in an adapter it was made. -/
inductive GoError where
  /-- Returned by `client.Get`: DNS, connection refused, the client's 1 s timeout. -/
  | transport (detail : String)
  /-- Made by `fmt.Errorf` for a status other than 200; `msg` is the formatted text. -/
  | status (msg : String)
  /-- Returned by `ioutil.ReadAll`. -/
  | read (detail : String)
  /-- The `json.SyntaxError` of `json.Unmarshal`: the body is not JSON text. -/
  | badJSON
  /-- The `json.UnmarshalTypeError` of `json.Unmarshal`: a value of kind `value` met
  where the Go target (the struct, or its string field `field`) cannot take it. -/
  | unmarshalType (value : String) (field : String)
  deriving DecidableEq, Repr

/-- An `*http.Response` as the adapters read it: the status code and the result of
`ioutil.ReadAll(resp.Body)`; bytes that were read are `none` when they are not JSON
text and `some v` when they are the JSON text of `v`. -/
structure Response where
  StatusCode : Int
  Body : Except GoError (Option JSON)

/-- The HTTP transport: what `client.Get(url)` returns for each URL. -/
abbrev Transport := String → Except GoError Response

/-- Constant `http.StatusOK`. -/
def StatusOK : Int := 200

/-- Case folding of one rune as `encoding/json` applies it to object keys, given on
the fold classes that hold an ASCII letter: `a`-`z` go to `A`-`Z`, U+017F (long s)
to `S`, U+212A (Kelvin sign) to `K`. Every other rune is left alone: it can only
fold to a rune outside ASCII, which no struct tag of this program contains. -/
def foldRune (c : Char) : Char :=
  if 97 ≤ c.toNat ∧ c.toNat ≤ 122 then Char.ofNat (c.toNat - 32)
  else if c.toNat = 0x17F then 'S'
  else if c.toNat = 0x212A then 'K'
  else c

/-- The folded form of a key: two keys match without regard to case when their
folded forms are equal. -/
def foldName (s : String) : String := String.mk (s.data.map foldRune)

/-- Field lookup of `json.Unmarshal` for one object key: an exact match with a tag
first, otherwise the field whose tag matches the key without regard to case. -/
def findField {F : Type} (tags : List (String × F)) (key : String) : Option F :=
  match tags.find? (fun t => t.1 == key) with
  | some t => some t.2
  | none => (tags.find? (fun t => foldName t.1 == foldName key)).map (fun t => t.2)

/-- The first error is the one `json.Unmarshal` reports (`saveError`). -/
def saveError (saved : Option GoError) (err : GoError) : Option GoError :=
  match saved with
  | some e => some e
  | none => some err

/-- Decoding of an object's members into a struct whose fields are all Go strings:
a key that matches no field is skipped, a JSON string is stored in its field (a
later member for the same field overwrites an earlier one), `null` leaves the field
as it is, and any other value is an `UnmarshalTypeError`, after which decoding goes
on with the next member. -/
def decodeMembers {F R : Type} (tags : List (String × F)) (set : F → String → R → R) :
    List (String × JSON) → R × Option GoError → R × Option GoError
  | [], acc => acc
  | (key, v) :: rest, (r, saved) =>
    match findField tags key with
    | none => decodeMembers tags set rest (r, saved)
    | some f =>
      match v with
      | .string s => decodeMembers tags set rest (set f s r, saved)
      | .null => decodeMembers tags set rest (r, saved)
      | other => decodeMembers tags set rest (r, saveError saved (.unmarshalType other.kind key))

/-- Call `json.Unmarshal(body, &apiResp)` for a struct of string fields that starts
at `zero`: a body that is not JSON text is a syntax error and nothing is decoded;
`null` has no effect; an object is decoded member by member; any other value cannot
be stored in a struct. -/
def unmarshal {F R : Type} (tags : List (String × F)) (set : F → String → R → R) (zero : R)
    (body : Option JSON) : R × Option GoError :=
  match body with
  | none => (zero, some .badJSON)
  | some .null => (zero, none)
  | some (.object members) => decodeMembers tags set members (zero, none)
  | some other => (zero, some (.unmarshalType other.kind ""))

/-- The fields of `BrasilAPIResponse`. -/
inductive BrasilAPIField where
  | Cep | State | City | Neighborhood | Street
  deriving DecidableEq, Repr

/-- The struct tags of `BrasilAPIResponse` (lines 14-18), in declaration order. -/
def brasilAPITags : List (String × BrasilAPIField) :=
  [("cep", .Cep), ("state", .State), ("city", .City),
   ("neighborhood", .Neighborhood), ("street", .Street)]

/-- Assignment to one field of a `BrasilAPIResponse`. -/
def BrasilAPIResponse.set (f : BrasilAPIField) (s : String) (r : BrasilAPIResponse) :
    BrasilAPIResponse :=
  match f with
  | .Cep => { r with Cep := s }
  | .State => { r with State := s }
  | .City => { r with City := s }
  | .Neighborhood => { r with Neighborhood := s }
  | .Street => { r with Street := s }

/-- The fields of `ViaCEPResponse`. -/
inductive ViaCEPField where
  | Cep | Logradouro | Bairro | Localidade | Uf
  deriving DecidableEq, Repr

/-- The struct tags of `ViaCEPResponse` (lines 22-26), in declaration order. -/
def viaCEPTags : List (String × ViaCEPField) :=
  [("cep", .Cep), ("logradouro", .Logradouro), ("bairro", .Bairro),
   ("localidade", .Localidade), ("uf", .Uf)]

/-- Assignment to one field of a `ViaCEPResponse`. -/
def ViaCEPResponse.set (f : ViaCEPField) (s : String) (r : ViaCEPResponse) : ViaCEPResponse :=
  match f with
  | .Cep => { r with Cep := s }
  | .Logradouro => { r with Logradouro := s }
  | .Bairro => { r with Bairro := s }
  | .Localidade => { r with Localidade := s }
  | .Uf => { r with Uf := s }

/-- Lines 100-101: `var apiResp BrasilAPIResponse; err = json.Unmarshal(body, &apiResp)`. -/
def unmarshalBrasilAPI (body : Option JSON) : BrasilAPIResponse × Option GoError :=
  unmarshal brasilAPITags BrasilAPIResponse.set {} body

/-- Lines 133-134: `var apiResp ViaCEPResponse; err = json.Unmarshal(body, &apiResp)`. -/
def unmarshalViaCEP (body : Option JSON) : ViaCEPResponse × Option GoError :=
  unmarshal viaCEPTags ViaCEPResponse.set {} body

/-! ## The source adapters (main.go lines 82-146) -/

/-- Function `fetchFromBrasilAPI` (lines 82-113). The result is Go's pair
`(Address, error)`; `none` is the nil error. -/
def fetchFromBrasilAPI (get : Transport) (cep : String) : Address × Option GoError :=
  let address : Address := {}
  let url := "https://brasilapi.com.br/api/cep/v1/" ++ cep
  match get url with
  | .error err => (address, some err)
  | .ok resp =>
    if resp.StatusCode ≠ StatusOK then
      (address, some (.status ("BrasilAPI retornou status " ++ toString resp.StatusCode)))
    else
      match resp.Body with
      | .error err => (address, some err)
      | .ok body =>
        match unmarshalBrasilAPI body with
        | (_, some err) => (address, some err)
        | (apiResp, none) =>
          ({ Cep := apiResp.Cep
             State := apiResp.State
             City := apiResp.City
             Neighborhood := apiResp.Neighborhood
             Street := apiResp.Street }, none)

/-- Function `fetchFromViaCEP` (lines 115-146). The result is Go's pair
`(Address, error)`; `none` is the nil error. -/
def fetchFromViaCEP (get : Transport) (cep : String) : Address × Option GoError :=
  let address : Address := {}
  let url := "http://viacep.com.br/ws/" ++ cep ++ "/json/"
  match get url with
  | .error err => (address, some err)
  | .ok resp =>
    if resp.StatusCode ≠ StatusOK then
      (address, some (.status ("ViaCEP retornou status " ++ toString resp.StatusCode)))
    else
      match resp.Body with
      | .error err => (address, some err)
      | .ok body =>
        match unmarshalViaCEP body with
        | (_, some err) => (address, some err)
        | (apiResp, none) =>
          ({ Cep := apiResp.Cep
             State := apiResp.Uf
             City := apiResp.Localidade
             Neighborhood := apiResp.Bairro
             Street := apiResp.Logradouro }, none)

/-! ## The race in `main` (main.go lines 39-80) -/

/-- The two sources raced by `main`: the goroutine of lines 50-57 and the one of
lines 59-66. -/
inductive Source where
  | BrasilAPI
  | ViaCEP
  deriving DecidableEq, Repr

/-- The other goroutine. -/
def Source.other : Source → Source
  | .BrasilAPI => .ViaCEP
  | .ViaCEP => .BrasilAPI

/-- The identifier a goroutine writes into `address.Source` (lines 55 and 64). -/
def Source.id : Source → String
  | .BrasilAPI => "BrasilAPI"
  | .ViaCEP => "ViaCEP"

/-- The adapter a goroutine calls (lines 51 and 60). -/
def Source.fetch (get : Transport) (cep : String) : Source → Address × Option GoError
  | .BrasilAPI => fetchFromBrasilAPI get cep
  | .ViaCEP => fetchFromViaCEP get cep

/-- Goroutine of lines 50-57, run to its last statement: `none` when it returns at
line 53 without sending, `some address` when it reaches `resultChan <- address`. -/
def goBrasilAPI (get : Transport) (cep : String) : Option Address :=
  match fetchFromBrasilAPI get cep with
  | (_, some _) => none
  | (address, none) => some { address with Source := "BrasilAPI" }

/-- Goroutine of lines 59-66, run to its last statement: `none` when it returns at
line 62 without sending, `some address` when it reaches `resultChan <- address`. -/
def goViaCEP (get : Transport) (cep : String) : Option Address :=
  match fetchFromViaCEP get cep with
  | (_, some _) => none
  | (address, none) => some { address with Source := "ViaCEP" }

/-- The value a source's goroutine offers on `resultChan`, if any. -/
def fetchTask (get : Transport) (cep : String) : Source → Option Address
  | .BrasilAPI => goBrasilAPI get cep
  | .ViaCEP => goViaCEP get cep

/-- What the `select` of lines 69-79 can be woken by. `resultChan` is unbuffered and
`main` is its only receiver, so while `main` is blocked in the `select` a goroutine
that reaches its send hands the value over at once: the goroutine finishing and the
receive of line 70 are one event. -/
inductive Event where
  /-- The goroutine of source `s` has finished its adapter call and run to its last
  statement (the `return` on error, or the send). -/
  | fetchDone (s : Source)
  /-- The channel of `time.After(1 * time.Second)` delivers (line 77). -/
  | deadline
  deriving DecidableEq, Repr

/-- The branch of the `select` that ran: line 70 with the received address, or
line 77. -/
inductive Outcome where
  | address (a : Address)
  | timeout
  deriving DecidableEq, Repr

/-- Where `main` is: blocked in the `select`, or past it (and so returned, which
ends the process and every goroutine with it). -/
inductive Main where
  | selecting
  | returned (o : Outcome)
  deriving DecidableEq, Repr

/-- One event of a run. After `main` has returned nothing happens any more. While
`main` is blocked, the timer runs the timeout branch, a goroutine that sends runs
the receive branch, and a goroutine that returned on error wakes nobody. -/
def step (get : Transport) (cep : String) : Main → Event → Main
  | .returned o, _ => .returned o
  | .selecting, .deadline => .returned .timeout
  | .selecting, .fetchDone s =>
    match fetchTask get cep s with
    | some a => .returned (.address a)
    | none => .selecting

/-- The outcome an event produces: the branch of the `select` it makes `main` run. -/
def produced (get : Transport) (cep : String) (m : Main) (e : Event) : Option Outcome :=
  match m, step get cep m e with
  | .selecting, .returned o => some o
  | _, _ => none

/-- The state after a sequence of events. -/
def run (get : Transport) (cep : String) : Main → List Event → Main
  | m, [] => m
  | m, e :: es => run get cep (step get cep m e) es

/-- Every outcome produced along a sequence of events, in order. -/
def outcomes (get : Transport) (cep : String) : Main → List Event → List Outcome
  | _, [] => []
  | m, e :: es => (produced get cep m e).toList ++ outcomes get cep (step get cep m e) es

/-- The text a branch of the `select` prints (lines 71-76, line 78). -/
def Outcome.print : Outcome → String
  | .address a =>
    "Resposta recebida da " ++ a.Source ++ ":\n" ++
    "CEP: " ++ a.Cep ++ "\n" ++
    "Estado: " ++ a.State ++ "\n" ++
    "Cidade: " ++ a.City ++ "\n" ++
    "Bairro: " ++ a.Neighborhood ++ "\n" ++
    "Rua: " ++ a.Street ++ "\n"
  | .timeout => "Erro de timeout\n"

/-- Function `main` (lines 39-80): the standard output of the program at its exit,
for the arguments `args` (`os.Args`), a transport and the events of the run; `none`
while `main` is still blocked in the `select`. -/
def main (args : List String) (get : Transport) (evs : List Event) : Option String :=
  match args with
  | _ :: cep :: _ =>
    match run get cep .selecting evs with
    | .selecting => none
    | .returned o => some o.print
  | _ => some "Uso: go run main.go <CEP>\n"

/-! ### Runs in time -/

/-- Go's `time.Millisecond`, in nanoseconds. -/
def Millisecond : Nat := 1000000

/-- Go's `time.Second`, in nanoseconds. -/
def Second : Nat := 1000 * Millisecond

/-- The instants, in nanoseconds after `main` entered the `select`, at which each
goroutine finishes. -/
structure Timing where
  brasilAPI : Nat
  viaCEP : Nat
  deriving DecidableEq, Repr

/-- The instant of an event: the timer of line 77 fires `1 * time.Second` after the
`select` was entered. -/
def Timing.instant (tm : Timing) : Event → Nat
  | .fetchDone .BrasilAPI => tm.brasilAPI
  | .fetchDone .ViaCEP => tm.viaCEP
  | .deadline => 1 * Second

/-- The events of a whole run. -/
def allEvents : List Event := [.fetchDone .BrasilAPI, .fetchDone .ViaCEP, .deadline]

/-- A run that agrees with `tm`: each event happens once, in the order of the
instants; events of the same instant may come in either order (Go's `select`
chooses among the ready cases at random). -/
def IsRun (tm : Timing) (evs : List Event) : Prop :=
  evs.Perm allEvents ∧ evs.Pairwise (fun a b => tm.instant a ≤ tm.instant b)

/-- Whether a list of events is a run that agrees with `tm` can be computed. -/
instance (tm : Timing) (evs : List Event) : Decidable (IsRun tm evs) := by
  unfold IsRun; infer_instance

/-! ## The documented field tables -/

/-- The five address fields an adapter fills. -/
inductive AddressField where
  | Cep | State | City | Neighborhood | Street
  deriving DecidableEq, Repr

/-- Projection of an `Address` on one of its adapter-filled fields. -/
def Address.get (a : Address) : AddressField → String
  | .Cep => a.Cep
  | .State => a.State
  | .City => a.City
  | .Neighborhood => a.Neighborhood
  | .Street => a.Street

/-- The documented native key of each address field for BrasilAPI:
`cep`, `state`, `city`, `neighborhood`, `street`. -/
def documentedBrasilAPIKey : AddressField → String
  | .Cep => "cep"
  | .State => "state"
  | .City => "city"
  | .Neighborhood => "neighborhood"
  | .Street => "street"

/-- The documented native key of each address field for ViaCEP:
`cep`, `uf`, `localidade`, `bairro`, `logradouro`. -/
def documentedViaCEPKey : AddressField → String
  | .Cep => "cep"
  | .State => "uf"
  | .City => "localidade"
  | .Neighborhood => "bairro"
  | .Street => "logradouro"

/-- A response with status 200 whose body was read and is the JSON text of `v`. -/
def okJSON (v : JSON) : Response := { StatusCode := 200, Body := .ok (some v) }

/-- The URL `fetchFromBrasilAPI` requests (line 87). -/
def brasilAPIURL (cep : String) : String := "https://brasilapi.com.br/api/cep/v1/" ++ cep

/-- The URL `fetchFromViaCEP` requests (line 120). -/
def viaCEPURL (cep : String) : String := "http://viacep.com.br/ws/" ++ cep ++ "/json/"

/-! ## Projections used to state the field mapping -/

/-- Projection of a `BrasilAPIResponse` on one field. -/
def BrasilAPIResponse.get (r : BrasilAPIResponse) : BrasilAPIField → String
  | .Cep => r.Cep
  | .State => r.State
  | .City => r.City
  | .Neighborhood => r.Neighborhood
  | .Street => r.Street

/-- Projection of a `ViaCEPResponse` on one field. -/
def ViaCEPResponse.get (r : ViaCEPResponse) : ViaCEPField → String
  | .Cep => r.Cep
  | .Logradouro => r.Logradouro
  | .Bairro => r.Bairro
  | .Localidade => r.Localidade
  | .Uf => r.Uf

/-- The `BrasilAPIResponse` field that lines 105-111 copy into each address field. -/
def brasilAPISource : AddressField → BrasilAPIField
  | .Cep => .Cep
  | .State => .State
  | .City => .City
  | .Neighborhood => .Neighborhood
  | .Street => .Street

/-- The `ViaCEPResponse` field that lines 138-144 copy into each address field. -/
def viaCEPSource : AddressField → ViaCEPField
  | .Cep => .Cep
  | .State => .Uf
  | .City => .Localidade
  | .Neighborhood => .Bairro
  | .Street => .Logradouro

/-! ## Sample transports and instants -/

/-- A transport for the postal code `01001000`: `b` answers the BrasilAPI URL and `v`
every other URL. -/
def twoSources (b v : Except GoError Response) : Transport :=
  fun url => if url = "https://brasilapi.com.br/api/cep/v1/01001000" then b else v

/-- A body in BrasilAPI's layout. -/
def brasilAPIBody : JSON :=
  .object [("cep", .string "01001000"), ("state", .string "SP"), ("city", .string "São Paulo"),
    ("neighborhood", .string "Sé"), ("street", .string "Praça da Sé"),
    ("service", .string "open-cep")]

/-- A body in ViaCEP's layout. -/
def viaCEPBody : JSON :=
  .object [("cep", .string "01001-000"), ("logradouro", .string "Praça da Sé"),
    ("complemento", .string "lado ímpar"), ("bairro", .string "Sé"),
    ("localidade", .string "São Paulo"), ("uf", .string "SP"), ("ibge", .string "3550308")]

/-- Both sources answer 200 with a body in their own layout. -/
def bothAnswer : Transport := twoSources (.ok (okJSON brasilAPIBody)) (.ok (okJSON viaCEPBody))

/-- Both sources answer with HTTP status 500. -/
def bothFail : Transport :=
  twoSources (.ok { StatusCode := 500, Body := .ok none })
    (.ok { StatusCode := 500, Body := .ok none })

/-- ViaCEP answers 200 with its not-found body; BrasilAPI answers 404. -/
def notFound : Transport :=
  twoSources (.ok { StatusCode := 404, Body := .ok none })
    (.ok (okJSON (.object [("erro", .bool true)])))

/-- ViaCEP answers 200 with an object that holds only `cep`, as a JSON number;
BrasilAPI answers 404. -/
def numericCep : Transport :=
  twoSources (.ok { StatusCode := 404, Body := .ok none })
    (.ok (okJSON (.object [("cep", .number "1001000")])))

/-- BrasilAPI answers 200 with a body in its layout; the GET to ViaCEP fails. -/
def brasilAPIOnly : Transport :=
  twoSources (.ok (okJSON brasilAPIBody)) (.error (.transport "Client.Timeout exceeded"))

/-- BrasilAPI's goroutine finishes exactly one second in, ViaCEP's 5 ms later. -/
def tieAtDeadline : Timing :=
  { brasilAPI := 1 * Second, viaCEP := 1 * Second + 5 * Millisecond }

/-! # Theorems -/

/-! ## Lemmas on decoding -/

theorem decodeMembers_append {F R : Type} (tags : List (String × F)) (set : F → String → R → R)
    (xs ys : List (String × JSON)) (acc : R × Option GoError) :
    decodeMembers tags set (xs ++ ys) acc
      = decodeMembers tags set ys (decodeMembers tags set xs acc) := by
  induction xs generalizing acc with
  | nil => rfl
  | cons x xs ih =>
    obtain ⟨key, v⟩ := x
    obtain ⟨r, saved⟩ := acc
    simp only [List.cons_append, decodeMembers]
    cases findField tags key with
    | none => exact ih _
    | some f => cases v <;> exact ih _

theorem decodeMembers_noError {F R : Type} (tags : List (String × F)) (set : F → String → R → R)
    (ms : List (String × JSON)) (r : R)
    (h : ∀ m ∈ ms, ∀ f, findField tags m.1 = some f → m.2 = .null ∨ ∃ s, m.2 = .string s) :
    (decodeMembers tags set ms (r, none)).2 = none := by
  induction ms generalizing r with
  | nil => rfl
  | cons x xs ih =>
    obtain ⟨key, v⟩ := x
    have hx := h (key, v) (List.mem_cons_self _ _)
    have hxs : ∀ m ∈ xs, ∀ f, findField tags m.1 = some f →
        m.2 = .null ∨ ∃ s, m.2 = .string s :=
      fun m hm => h m (List.mem_cons_of_mem _ hm)
    simp only [decodeMembers]
    cases hf : findField tags key with
    | none => exact ih _ hxs
    | some f =>
      rcases hx f hf with hs | ⟨s, hs⟩
      · simp only at hs
        subst hs
        exact ih _ hxs
      · simp only at hs
        subst hs
        exact ih _ hxs

theorem decodeMembers_frame {F R : Type} (tags : List (String × F)) (set : F → String → R → R)
    (proj : R → String) (f : F) (hframe : ∀ g s r, g ≠ f → proj (set g s r) = proj r)
    (ms : List (String × JSON)) (acc : R × Option GoError)
    (h : ∀ m ∈ ms, findField tags m.1 ≠ some f) :
    proj (decodeMembers tags set ms acc).1 = proj acc.1 := by
  induction ms generalizing acc with
  | nil => rfl
  | cons x xs ih =>
    obtain ⟨key, v⟩ := x
    obtain ⟨r, saved⟩ := acc
    have hx := h (key, v) (List.mem_cons_self _ _)
    have hxs : ∀ m ∈ xs, findField tags m.1 ≠ some f :=
      fun m hm => h m (List.mem_cons_of_mem _ hm)
    simp only [decodeMembers]
    cases hf : findField tags key with
    | none => exact ih _ hxs
    | some g =>
      have hg : g ≠ f := fun e => hx (by simp [hf, e])
      cases v <;> simp only [ih _ hxs, hframe g _ r hg]

theorem decodeMembers_last {F R : Type} (tags : List (String × F)) (set : F → String → R → R)
    (proj : R → String) (f : F) (hframe : ∀ g s r, g ≠ f → proj (set g s r) = proj r)
    (hset : ∀ s r, proj (set f s r) = s)
    (pre post : List (String × JSON)) (k s : String) (acc : R × Option GoError)
    (hk : findField tags k = some f)
    (h : ∀ m ∈ post, findField tags m.1 ≠ some f) :
    proj (decodeMembers tags set (pre ++ (k, .string s) :: post) acc).1 = s := by
  rw [decodeMembers_append]
  obtain ⟨r, saved⟩ := decodeMembers tags set pre acc
  simp only [decodeMembers, hk]
  rw [decodeMembers_frame tags set proj f hframe post _ h]
  exact hset s r

theorem brasilAPI_get_set (f : BrasilAPIField) (s : String) (r : BrasilAPIResponse) :
    (BrasilAPIResponse.set f s r).get f = s := by
  cases f <;> rfl

theorem brasilAPI_get_set_ne (f g : BrasilAPIField) (s : String) (r : BrasilAPIResponse)
    (h : g ≠ f) : (BrasilAPIResponse.set g s r).get f = r.get f := by
  cases f <;> cases g <;> first | rfl | exact absurd rfl h

theorem viaCEP_get_set (f : ViaCEPField) (s : String) (r : ViaCEPResponse) :
    (ViaCEPResponse.set f s r).get f = s := by
  cases f <;> rfl

theorem viaCEP_get_set_ne (f g : ViaCEPField) (s : String) (r : ViaCEPResponse)
    (h : g ≠ f) : (ViaCEPResponse.set g s r).get f = r.get f := by
  cases f <;> cases g <;> first | rfl | exact absurd rfl h

theorem brasilAPI_key_field (af : AddressField) :
    findField brasilAPITags (documentedBrasilAPIKey af) = some (brasilAPISource af) := by
  cases af <;> decide

theorem viaCEP_key_field (af : AddressField) :
    findField viaCEPTags (documentedViaCEPKey af) = some (viaCEPSource af) := by
  cases af <;> decide

/-- The adapter past its three early returns: with the GET answered, status 200 and
the body read, the result is decided by `json.Unmarshal` alone. -/
theorem fetchFromBrasilAPI_ok (get : Transport) (cep : String) (resp : Response)
    (body : Option JSON) (h1 : get (brasilAPIURL cep) = .ok resp)
    (h2 : resp.StatusCode = StatusOK) (h3 : resp.Body = .ok body) :
    fetchFromBrasilAPI get cep =
      match unmarshalBrasilAPI body with
      | (_, some err) => ({}, some err)
      | (apiResp, none) =>
        ({ Cep := apiResp.Cep, State := apiResp.State, City := apiResp.City,
           Neighborhood := apiResp.Neighborhood, Street := apiResp.Street }, none) := by
  unfold brasilAPIURL at h1
  simp only [fetchFromBrasilAPI, h1, h2, h3, ne_eq, not_true_eq_false, if_false]

theorem fetchFromViaCEP_ok (get : Transport) (cep : String) (resp : Response)
    (body : Option JSON) (h1 : get (viaCEPURL cep) = .ok resp)
    (h2 : resp.StatusCode = StatusOK) (h3 : resp.Body = .ok body) :
    fetchFromViaCEP get cep =
      match unmarshalViaCEP body with
      | (_, some err) => ({}, some err)
      | (apiResp, none) =>
        ({ Cep := apiResp.Cep, State := apiResp.Uf, City := apiResp.Localidade,
           Neighborhood := apiResp.Bairro, Street := apiResp.Logradouro }, none) := by
  unfold viaCEPURL at h1
  simp only [fetchFromViaCEP, h1, h2, h3, ne_eq, not_true_eq_false, if_false]

/-- On a decoded body the address holds, field by field, what `apiResp` holds. -/
theorem fetchFromBrasilAPI_decoded (get : Transport) (cep : String) (resp : Response)
    (body : Option JSON) (apiResp : BrasilAPIResponse) (h1 : get (brasilAPIURL cep) = .ok resp)
    (h2 : resp.StatusCode = StatusOK) (h3 : resp.Body = .ok body)
    (h4 : unmarshalBrasilAPI body = (apiResp, none)) :
    (fetchFromBrasilAPI get cep).2 = none ∧ (fetchFromBrasilAPI get cep).1.Source = "" ∧
      ∀ af, (fetchFromBrasilAPI get cep).1.get af = apiResp.get (brasilAPISource af) := by
  rw [fetchFromBrasilAPI_ok get cep resp body h1 h2 h3, h4]
  refine ⟨rfl, rfl, fun af => ?_⟩
  cases af <;> rfl

theorem fetchFromViaCEP_decoded (get : Transport) (cep : String) (resp : Response)
    (body : Option JSON) (apiResp : ViaCEPResponse) (h1 : get (viaCEPURL cep) = .ok resp)
    (h2 : resp.StatusCode = StatusOK) (h3 : resp.Body = .ok body)
    (h4 : unmarshalViaCEP body = (apiResp, none)) :
    (fetchFromViaCEP get cep).2 = none ∧ (fetchFromViaCEP get cep).1.Source = "" ∧
      ∀ af, (fetchFromViaCEP get cep).1.get af = apiResp.get (viaCEPSource af) := by
  rw [fetchFromViaCEP_ok get cep resp body h1 h2 h3, h4]
  refine ⟨rfl, rfl, fun af => ?_⟩
  cases af <;> rfl

/-- The ways an adapter call can go, read off the transport. -/
theorem fetchFromBrasilAPI_cases (get : Transport) (cep : String) :
    (∃ e, get (brasilAPIURL cep) = .error e ∧ fetchFromBrasilAPI get cep = ({}, some e)) ∨
    (∃ resp, get (brasilAPIURL cep) = .ok resp ∧ resp.StatusCode ≠ StatusOK ∧
      fetchFromBrasilAPI get cep =
        ({}, some (.status ("BrasilAPI retornou status " ++ toString resp.StatusCode)))) ∨
    (∃ resp e, get (brasilAPIURL cep) = .ok resp ∧ resp.StatusCode = StatusOK ∧
      resp.Body = .error e ∧ fetchFromBrasilAPI get cep = ({}, some e)) ∨
    (∃ resp body r e, get (brasilAPIURL cep) = .ok resp ∧ resp.StatusCode = StatusOK ∧
      resp.Body = .ok body ∧ unmarshalBrasilAPI body = (r, some e) ∧
      fetchFromBrasilAPI get cep = ({}, some e)) ∨
    (∃ resp body r, get (brasilAPIURL cep) = .ok resp ∧ resp.StatusCode = StatusOK ∧
      resp.Body = .ok body ∧ unmarshalBrasilAPI body = (r, none) ∧
      fetchFromBrasilAPI get cep =
        ({ Cep := r.Cep, State := r.State, City := r.City,
           Neighborhood := r.Neighborhood, Street := r.Street }, none)) := by
  cases h1 : get (brasilAPIURL cep) with
  | error e =>
    left
    refine ⟨e, rfl, ?_⟩
    unfold brasilAPIURL at h1
    simp only [fetchFromBrasilAPI, h1]
  | ok resp =>
    right
    by_cases h2 : resp.StatusCode = StatusOK
    · right
      cases h3 : resp.Body with
      | error e =>
        left
        refine ⟨resp, e, rfl, h2, h3, ?_⟩
        unfold brasilAPIURL at h1
        simp only [fetchFromBrasilAPI, h1, h2, h3, ne_eq, not_true_eq_false, if_false]
      | ok body =>
        right
        have hok := fetchFromBrasilAPI_ok get cep resp body h1 h2 h3
        rcases h4 : unmarshalBrasilAPI body with ⟨r, _ | e⟩
        · right
          refine ⟨resp, body, r, rfl, h2, h3, h4, ?_⟩
          rw [hok, h4]
        · left
          refine ⟨resp, body, r, e, rfl, h2, h3, h4, ?_⟩
          rw [hok, h4]
    · left
      refine ⟨resp, rfl, h2, ?_⟩
      unfold brasilAPIURL at h1
      simp only [fetchFromBrasilAPI, h1, ne_eq, h2, not_false_eq_true, if_true]

theorem fetchFromViaCEP_cases (get : Transport) (cep : String) :
    (∃ e, get (viaCEPURL cep) = .error e ∧ fetchFromViaCEP get cep = ({}, some e)) ∨
    (∃ resp, get (viaCEPURL cep) = .ok resp ∧ resp.StatusCode ≠ StatusOK ∧
      fetchFromViaCEP get cep =
        ({}, some (.status ("ViaCEP retornou status " ++ toString resp.StatusCode)))) ∨
    (∃ resp e, get (viaCEPURL cep) = .ok resp ∧ resp.StatusCode = StatusOK ∧
      resp.Body = .error e ∧ fetchFromViaCEP get cep = ({}, some e)) ∨
    (∃ resp body r e, get (viaCEPURL cep) = .ok resp ∧ resp.StatusCode = StatusOK ∧
      resp.Body = .ok body ∧ unmarshalViaCEP body = (r, some e) ∧
      fetchFromViaCEP get cep = ({}, some e)) ∨
    (∃ resp body r, get (viaCEPURL cep) = .ok resp ∧ resp.StatusCode = StatusOK ∧
      resp.Body = .ok body ∧ unmarshalViaCEP body = (r, none) ∧
      fetchFromViaCEP get cep =
        ({ Cep := r.Cep, State := r.Uf, City := r.Localidade,
           Neighborhood := r.Bairro, Street := r.Logradouro }, none)) := by
  cases h1 : get (viaCEPURL cep) with
  | error e =>
    left
    refine ⟨e, rfl, ?_⟩
    unfold viaCEPURL at h1
    simp only [fetchFromViaCEP, h1]
  | ok resp =>
    right
    by_cases h2 : resp.StatusCode = StatusOK
    · right
      cases h3 : resp.Body with
      | error e =>
        left
        refine ⟨resp, e, rfl, h2, h3, ?_⟩
        unfold viaCEPURL at h1
        simp only [fetchFromViaCEP, h1, h2, h3, ne_eq, not_true_eq_false, if_false]
      | ok body =>
        right
        have hok := fetchFromViaCEP_ok get cep resp body h1 h2 h3
        rcases h4 : unmarshalViaCEP body with ⟨r, _ | e⟩
        · right
          refine ⟨resp, body, r, rfl, h2, h3, h4, ?_⟩
          rw [hok, h4]
        · left
          refine ⟨resp, body, r, e, rfl, h2, h3, h4, ?_⟩
          rw [hok, h4]
    · left
      refine ⟨resp, rfl, h2, ?_⟩
      unfold viaCEPURL at h1
      simp only [fetchFromViaCEP, h1, ne_eq, h2, not_false_eq_true, if_true]

/-! ## The adapters: claims C2, C3, C5, C9 -/

theorem unmarshalBrasilAPI_object (ms : List (String × JSON)) :
    unmarshalBrasilAPI (some (.object ms))
      = decodeMembers brasilAPITags BrasilAPIResponse.set ms ({}, none) := rfl

theorem unmarshalViaCEP_object (ms : List (String × JSON)) :
    unmarshalViaCEP (some (.object ms))
      = decodeMembers viaCEPTags ViaCEPResponse.set ms ({}, none) := rfl

/-- A member for the documented key, not overwritten later, ends in `apiResp`. -/
theorem unmarshalBrasilAPI_present (af : AddressField) (pre post : List (String × JSON))
    (s : String)
    (h : ∀ m ∈ post, findField brasilAPITags m.1
      ≠ findField brasilAPITags (documentedBrasilAPIKey af)) :
    (unmarshalBrasilAPI (some (.object
      (pre ++ (documentedBrasilAPIKey af, .string s) :: post)))).1.get (brasilAPISource af)
      = s := by
  rw [unmarshalBrasilAPI_object]
  rw [brasilAPI_key_field] at h
  exact decodeMembers_last brasilAPITags BrasilAPIResponse.set
    (fun r => r.get (brasilAPISource af)) (brasilAPISource af)
    (fun g s r hg => brasilAPI_get_set_ne _ g s r hg) (fun s r => brasilAPI_get_set _ s r)
    pre post _ s _ (brasilAPI_key_field af) h

theorem unmarshalViaCEP_present (af : AddressField) (pre post : List (String × JSON))
    (s : String)
    (h : ∀ m ∈ post, findField viaCEPTags m.1
      ≠ findField viaCEPTags (documentedViaCEPKey af)) :
    (unmarshalViaCEP (some (.object
      (pre ++ (documentedViaCEPKey af, .string s) :: post)))).1.get (viaCEPSource af)
      = s := by
  rw [unmarshalViaCEP_object]
  rw [viaCEP_key_field] at h
  exact decodeMembers_last viaCEPTags ViaCEPResponse.set
    (fun r => r.get (viaCEPSource af)) (viaCEPSource af)
    (fun g s r hg => viaCEP_get_set_ne _ g s r hg) (fun s r => viaCEP_get_set _ s r)
    pre post _ s _ (viaCEP_key_field af) h

/-- A field no member resolves to keeps the zero value. -/
theorem unmarshalBrasilAPI_omitted (af : AddressField) (ms : List (String × JSON))
    (h : ∀ m ∈ ms, findField brasilAPITags m.1
      ≠ findField brasilAPITags (documentedBrasilAPIKey af)) :
    (unmarshalBrasilAPI (some (.object ms))).1.get (brasilAPISource af) = "" := by
  rw [unmarshalBrasilAPI_object]
  rw [brasilAPI_key_field] at h
  rw [decodeMembers_frame brasilAPITags BrasilAPIResponse.set
    (fun r => r.get (brasilAPISource af)) (brasilAPISource af)
    (fun g s r hg => brasilAPI_get_set_ne _ g s r hg) ms _ h]
  cases af <;> rfl

theorem unmarshalViaCEP_omitted (af : AddressField) (ms : List (String × JSON))
    (h : ∀ m ∈ ms, findField viaCEPTags m.1
      ≠ findField viaCEPTags (documentedViaCEPKey af)) :
    (unmarshalViaCEP (some (.object ms))).1.get (viaCEPSource af) = "" := by
  rw [unmarshalViaCEP_object]
  rw [viaCEP_key_field] at h
  rw [decodeMembers_frame viaCEPTags ViaCEPResponse.set
    (fun r => r.get (viaCEPSource af)) (viaCEPSource af)
    (fun g s r hg => viaCEP_get_set_ne _ g s r hg) ms _ h]
  cases af <;> rfl

theorem fetchFromBrasilAPI_source (get : Transport) (cep : String) :
    (fetchFromBrasilAPI get cep).1.Source = "" := by
  rcases fetchFromBrasilAPI_cases get cep with ⟨e, _, h⟩ | ⟨r, _, _, h⟩ | ⟨r, e, _, _, _, h⟩ |
    ⟨r, b, a, e, _, _, _, _, h⟩ | ⟨r, b, a, _, _, _, _, h⟩ <;> rw [h]

theorem fetchFromViaCEP_source (get : Transport) (cep : String) :
    (fetchFromViaCEP get cep).1.Source = "" := by
  rcases fetchFromViaCEP_cases get cep with ⟨e, _, h⟩ | ⟨r, _, _, h⟩ | ⟨r, e, _, _, _, h⟩ |
    ⟨r, b, a, e, _, _, _, _, h⟩ | ⟨r, b, a, _, _, _, _, h⟩ <;> rw [h]

/-- A nil error means the call went through all four checks. -/
theorem fetchFromBrasilAPI_success (get : Transport) (cep : String)
    (h : (fetchFromBrasilAPI get cep).2 = none) :
    ∃ resp body apiResp, get (brasilAPIURL cep) = .ok resp ∧ resp.StatusCode = StatusOK ∧
      resp.Body = .ok body ∧ unmarshalBrasilAPI body = (apiResp, none) ∧
      fetchFromBrasilAPI get cep =
        ({ Cep := apiResp.Cep, State := apiResp.State, City := apiResp.City,
           Neighborhood := apiResp.Neighborhood, Street := apiResp.Street }, none) := by
  rcases fetchFromBrasilAPI_cases get cep with ⟨e, _, hf⟩ | ⟨r, _, _, hf⟩ | ⟨r, e, _, _, _, hf⟩ |
    ⟨r, b, a, e, _, _, _, _, hf⟩ | ⟨r, b, a, h1, h2, h3, h4, hf⟩
  · rw [hf] at h; cases h
  · rw [hf] at h; cases h
  · rw [hf] at h; cases h
  · rw [hf] at h; cases h
  · exact ⟨r, b, a, h1, h2, h3, h4, hf⟩

theorem fetchFromViaCEP_success (get : Transport) (cep : String)
    (h : (fetchFromViaCEP get cep).2 = none) :
    ∃ resp body apiResp, get (viaCEPURL cep) = .ok resp ∧ resp.StatusCode = StatusOK ∧
      resp.Body = .ok body ∧ unmarshalViaCEP body = (apiResp, none) ∧
      fetchFromViaCEP get cep =
        ({ Cep := apiResp.Cep, State := apiResp.Uf, City := apiResp.Localidade,
           Neighborhood := apiResp.Bairro, Street := apiResp.Logradouro }, none) := by
  rcases fetchFromViaCEP_cases get cep with ⟨e, _, hf⟩ | ⟨r, _, _, hf⟩ | ⟨r, e, _, _, _, hf⟩ |
    ⟨r, b, a, e, _, _, _, _, hf⟩ | ⟨r, b, a, h1, h2, h3, h4, hf⟩
  · rw [hf] at h; cases h
  · rw [hf] at h; cases h
  · rw [hf] at h; cases h
  · rw [hf] at h; cases h
  · exact ⟨r, b, a, h1, h2, h3, h4, hf⟩

/-- C2 (field-mapping fidelity). Whenever an adapter returns a nil error, the GET was
answered, the body was read and decoded into some `apiResp`, and the address is
`apiResp` copied field by field, `Uf` to `State`, `Localidade` to `City`, `Bairro` to
`Neighborhood`, `Logradouro` to `Street` for ViaCEP and name to name for BrasilAPI,
with `Source` empty. Moreover, when the body is a JSON object holding a string `s`
under the documented key of an address field, and no later member resolves to the
same struct field, that address field is `s`. -/
theorem field_mapping_fidelity (get : Transport) (cep : String) :
    ((fetchFromBrasilAPI get cep).2 = none →
      ∃ resp body apiResp, get (brasilAPIURL cep) = .ok resp ∧ resp.Body = .ok body ∧
        unmarshalBrasilAPI body = (apiResp, none) ∧
        (fetchFromBrasilAPI get cep).1 =
          { Cep := apiResp.Cep, State := apiResp.State, City := apiResp.City,
            Neighborhood := apiResp.Neighborhood, Street := apiResp.Street, Source := "" } ∧
        ∀ af pre s post,
          body = some (.object (pre ++ (documentedBrasilAPIKey af, .string s) :: post)) →
          (∀ m ∈ post, findField brasilAPITags m.1
            ≠ findField brasilAPITags (documentedBrasilAPIKey af)) →
          (fetchFromBrasilAPI get cep).1.get af = s) ∧
    ((fetchFromViaCEP get cep).2 = none →
      ∃ resp body apiResp, get (viaCEPURL cep) = .ok resp ∧ resp.Body = .ok body ∧
        unmarshalViaCEP body = (apiResp, none) ∧
        (fetchFromViaCEP get cep).1 =
          { Cep := apiResp.Cep, State := apiResp.Uf, City := apiResp.Localidade,
            Neighborhood := apiResp.Bairro, Street := apiResp.Logradouro, Source := "" } ∧
        ∀ af pre s post,
          body = some (.object (pre ++ (documentedViaCEPKey af, .string s) :: post)) →
          (∀ m ∈ post, findField viaCEPTags m.1
            ≠ findField viaCEPTags (documentedViaCEPKey af)) →
          (fetchFromViaCEP get cep).1.get af = s) := by
  constructor
  · intro h
    obtain ⟨resp, body, apiResp, h1, h2, h3, h4, hf⟩ := fetchFromBrasilAPI_success get cep h
    refine ⟨resp, body, apiResp, h1, h3, h4, by rw [hf], ?_⟩
    intro af pre s post hbody hpost
    rw [(fetchFromBrasilAPI_decoded get cep resp body apiResp h1 h2 h3 h4).2.2 af]
    have hp := unmarshalBrasilAPI_present af pre post s hpost
    rw [← hbody, h4] at hp
    exact hp
  · intro h
    obtain ⟨resp, body, apiResp, h1, h2, h3, h4, hf⟩ := fetchFromViaCEP_success get cep h
    refine ⟨resp, body, apiResp, h1, h3, h4, by rw [hf], ?_⟩
    intro af pre s post hbody hpost
    rw [(fetchFromViaCEP_decoded get cep resp body apiResp h1 h2 h3 h4).2.2 af]
    have hp := unmarshalViaCEP_present af pre post s hpost
    rw [← hbody, h4] at hp
    exact hp

/-- Witness of C2: on the sample bodies both adapters succeed, and the theorem gives
the decoded struct and the copied address of each. -/
theorem field_mapping_fidelity_witness :
    ((fetchFromBrasilAPI bothAnswer "01001000").2 = none ∧
      (fetchFromViaCEP bothAnswer "01001000").2 = none) ∧
    (∃ resp body apiResp, bothAnswer (viaCEPURL "01001000") = .ok resp ∧ resp.Body = .ok body ∧
        unmarshalViaCEP body = (apiResp, none) ∧
        (fetchFromViaCEP bothAnswer "01001000").1 =
          { Cep := apiResp.Cep, State := apiResp.Uf, City := apiResp.Localidade,
            Neighborhood := apiResp.Bairro, Street := apiResp.Logradouro, Source := "" } ∧
        ∀ af pre s post,
          body = some (.object (pre ++ (documentedViaCEPKey af, .string s) :: post)) →
          (∀ m ∈ post, findField viaCEPTags m.1
            ≠ findField viaCEPTags (documentedViaCEPKey af)) →
          (fetchFromViaCEP bothAnswer "01001000").1.get af = s) ∧
    (fetchFromViaCEP bothAnswer "01001000").1 =
      { Cep := "01001-000", State := "SP", City := "São Paulo", Neighborhood := "Sé",
        Street := "Praça da Sé", Source := "" } ∧
    (fetchFromBrasilAPI bothAnswer "01001000").1 =
      { Cep := "01001000", State := "SP", City := "São Paulo", Neighborhood := "Sé",
        Street := "Praça da Sé", Source := "" } :=
  ⟨⟨by decide, by decide⟩,
    (field_mapping_fidelity bothAnswer "01001000").2 (by decide), by decide, by decide⟩

/-- C3 (adapter success condition). Each adapter returns a nil error exactly when the
GET returned a response, its status is 200, the body was read and `json.Unmarshal`
accepted it; and it returns a non-nil error exactly when the GET failed, or the
status is not 200, or reading the body failed, or `json.Unmarshal` reported an error.
The adapter is a total function: every failure is a returned value. -/
theorem adapter_success_iff (get : Transport) (cep : String) :
    ((fetchFromBrasilAPI get cep).2 = none ↔
      ∃ resp body, get (brasilAPIURL cep) = .ok resp ∧ resp.StatusCode = StatusOK ∧
        resp.Body = .ok body ∧ (unmarshalBrasilAPI body).2 = none) ∧
    ((fetchFromBrasilAPI get cep).2 ≠ none ↔
      (∃ e, get (brasilAPIURL cep) = .error e) ∨
      (∃ resp, get (brasilAPIURL cep) = .ok resp ∧ resp.StatusCode ≠ StatusOK) ∨
      (∃ resp e, get (brasilAPIURL cep) = .ok resp ∧ resp.Body = .error e) ∨
      (∃ resp body, get (brasilAPIURL cep) = .ok resp ∧ resp.Body = .ok body ∧
        (unmarshalBrasilAPI body).2 ≠ none)) ∧
    ((fetchFromViaCEP get cep).2 = none ↔
      ∃ resp body, get (viaCEPURL cep) = .ok resp ∧ resp.StatusCode = StatusOK ∧
        resp.Body = .ok body ∧ (unmarshalViaCEP body).2 = none) ∧
    ((fetchFromViaCEP get cep).2 ≠ none ↔
      (∃ e, get (viaCEPURL cep) = .error e) ∨
      (∃ resp, get (viaCEPURL cep) = .ok resp ∧ resp.StatusCode ≠ StatusOK) ∨
      (∃ resp e, get (viaCEPURL cep) = .ok resp ∧ resp.Body = .error e) ∨
      (∃ resp body, get (viaCEPURL cep) = .ok resp ∧ resp.Body = .ok body ∧
        (unmarshalViaCEP body).2 ≠ none)) := by
  refine ⟨?_, ?_, ?_, ?_⟩
  · rcases fetchFromBrasilAPI_cases get cep with ⟨e, h1, hf⟩ | ⟨r, h1, h2, hf⟩ |
      ⟨r, e, h1, h2, h3, hf⟩ | ⟨r, b, a, e, h1, h2, h3, h4, hf⟩ | ⟨r, b, a, h1, h2, h3, h4, hf⟩
    · rw [hf]; simp [h1]
    · rw [hf]; simp only [reduceCtorEq, false_iff, not_exists, not_and]
      intro resp body h1'
      rw [h1] at h1'; cases h1'
      exact fun h => absurd h h2
    · rw [hf]; simp only [reduceCtorEq, false_iff, not_exists, not_and]
      intro resp body h1' _ h3'
      rw [h1] at h1'; cases h1'
      rw [h3] at h3'; cases h3'
    · rw [hf]; simp only [reduceCtorEq, false_iff, not_exists, not_and]
      intro resp body h1' _ h3'
      rw [h1] at h1'; cases h1'
      rw [h3] at h3'; cases h3'
      rw [h4]; simp
    · rw [hf]; simp only [true_iff]
      exact ⟨r, b, h1, h2, h3, by rw [h4]⟩
  · rcases fetchFromBrasilAPI_cases get cep with ⟨e, h1, hf⟩ | ⟨r, h1, h2, hf⟩ |
      ⟨r, e, h1, h2, h3, hf⟩ | ⟨r, b, a, e, h1, h2, h3, h4, hf⟩ | ⟨r, b, a, h1, h2, h3, h4, hf⟩
    · rw [hf]; simp [h1]
    · rw [hf]; simp only [ne_eq, reduceCtorEq, not_false_eq_true, true_iff]
      exact Or.inr (Or.inl ⟨r, h1, h2⟩)
    · rw [hf]; simp only [ne_eq, reduceCtorEq, not_false_eq_true, true_iff]
      exact Or.inr (Or.inr (Or.inl ⟨r, e, h1, h3⟩))
    · rw [hf]; simp only [ne_eq, reduceCtorEq, not_false_eq_true, true_iff]
      exact Or.inr (Or.inr (Or.inr ⟨r, b, h1, h3, by rw [h4]; simp⟩))
    · rw [hf]; simp only [ne_eq, not_true_eq_false, false_iff, not_or, not_exists, not_and]
      refine ⟨fun e h1' => ?_, fun resp h1' => ?_, fun resp e h1' h3' => ?_,
        fun resp body h1' h3' => ?_⟩
      · rw [h1] at h1'; cases h1'
      · rw [h1] at h1'; cases h1'; exact not_not.mpr h2
      · rw [h1] at h1'; cases h1'; rw [h3] at h3'; cases h3'
      · rw [h1] at h1'; cases h1'; rw [h3] at h3'; cases h3'; rw [h4]; simp
  · rcases fetchFromViaCEP_cases get cep with ⟨e, h1, hf⟩ | ⟨r, h1, h2, hf⟩ |
      ⟨r, e, h1, h2, h3, hf⟩ | ⟨r, b, a, e, h1, h2, h3, h4, hf⟩ | ⟨r, b, a, h1, h2, h3, h4, hf⟩
    · rw [hf]; simp [h1]
    · rw [hf]; simp only [reduceCtorEq, false_iff, not_exists, not_and]
      intro resp body h1'
      rw [h1] at h1'; cases h1'
      exact fun h => absurd h h2
    · rw [hf]; simp only [reduceCtorEq, false_iff, not_exists, not_and]
      intro resp body h1' _ h3'
      rw [h1] at h1'; cases h1'
      rw [h3] at h3'; cases h3'
    · rw [hf]; simp only [reduceCtorEq, false_iff, not_exists, not_and]
      intro resp body h1' _ h3'
      rw [h1] at h1'; cases h1'
      rw [h3] at h3'; cases h3'
      rw [h4]; simp
    · rw [hf]; simp only [true_iff]
      exact ⟨r, b, h1, h2, h3, by rw [h4]⟩
  · rcases fetchFromViaCEP_cases get cep with ⟨e, h1, hf⟩ | ⟨r, h1, h2, hf⟩ |
      ⟨r, e, h1, h2, h3, hf⟩ | ⟨r, b, a, e, h1, h2, h3, h4, hf⟩ | ⟨r, b, a, h1, h2, h3, h4, hf⟩
    · rw [hf]; simp [h1]
    · rw [hf]; simp only [ne_eq, reduceCtorEq, not_false_eq_true, true_iff]
      exact Or.inr (Or.inl ⟨r, h1, h2⟩)
    · rw [hf]; simp only [ne_eq, reduceCtorEq, not_false_eq_true, true_iff]
      exact Or.inr (Or.inr (Or.inl ⟨r, e, h1, h3⟩))
    · rw [hf]; simp only [ne_eq, reduceCtorEq, not_false_eq_true, true_iff]
      exact Or.inr (Or.inr (Or.inr ⟨r, b, h1, h3, by rw [h4]; simp⟩))
    · rw [hf]; simp only [ne_eq, not_true_eq_false, false_iff, not_or, not_exists, not_and]
      refine ⟨fun e h1' => ?_, fun resp h1' => ?_, fun resp e h1' h3' => ?_,
        fun resp body h1' h3' => ?_⟩
      · rw [h1] at h1'; cases h1'
      · rw [h1] at h1'; cases h1'; exact not_not.mpr h2
      · rw [h1] at h1'; cases h1'; rw [h3] at h3'; cases h3'
      · rw [h1] at h1'; cases h1'; rw [h3] at h3'; cases h3'; rw [h4]; simp

theorem perm_allEvents_cases (evs : List Event) (h : evs.Perm allEvents) :
    evs = [.fetchDone .BrasilAPI, .fetchDone .ViaCEP, .deadline] ∨
    evs = [.fetchDone .ViaCEP, .fetchDone .BrasilAPI, .deadline] ∨
    evs = [.deadline, .fetchDone .ViaCEP, .fetchDone .BrasilAPI] ∨
    evs = [.fetchDone .ViaCEP, .deadline, .fetchDone .BrasilAPI] ∨
    evs = [.deadline, .fetchDone .BrasilAPI, .fetchDone .ViaCEP] ∨
    evs = [.fetchDone .BrasilAPI, .deadline, .fetchDone .ViaCEP] := by
  have hlen : evs.length = 3 := h.length_eq
  obtain ⟨x, y, z, rfl⟩ := List.length_eq_three.mp hlen
  revert h
  rcases x with ⟨_ | _⟩ | _ <;> rcases y with ⟨_ | _⟩ | _ <;> rcases z with ⟨_ | _⟩ | _ <;> decide

/-- The six orders a whole run can take, each with what it says about the instants. -/
theorem isRun_cases (tm : Timing) (evs : List Event) (h : IsRun tm evs) :
    (evs = [.fetchDone .BrasilAPI, .fetchDone .ViaCEP, .deadline] ∧
      tm.brasilAPI ≤ tm.viaCEP ∧ tm.viaCEP ≤ 1 * Second) ∨
    (evs = [.fetchDone .ViaCEP, .fetchDone .BrasilAPI, .deadline] ∧
      tm.viaCEP ≤ tm.brasilAPI ∧ tm.brasilAPI ≤ 1 * Second) ∨
    (evs = [.deadline, .fetchDone .ViaCEP, .fetchDone .BrasilAPI] ∧
      1 * Second ≤ tm.viaCEP ∧ tm.viaCEP ≤ tm.brasilAPI) ∨
    (evs = [.fetchDone .ViaCEP, .deadline, .fetchDone .BrasilAPI] ∧
      tm.viaCEP ≤ 1 * Second ∧ 1 * Second ≤ tm.brasilAPI) ∨
    (evs = [.deadline, .fetchDone .BrasilAPI, .fetchDone .ViaCEP] ∧
      1 * Second ≤ tm.brasilAPI ∧ tm.brasilAPI ≤ tm.viaCEP) ∨
    (evs = [.fetchDone .BrasilAPI, .deadline, .fetchDone .ViaCEP] ∧
      tm.brasilAPI ≤ 1 * Second ∧ 1 * Second ≤ tm.viaCEP) := by
  obtain ⟨hperm, hsorted⟩ := h
  rcases perm_allEvents_cases evs hperm with rfl | rfl | rfl | rfl | rfl | rfl <;>
    simp only [List.pairwise_cons, List.mem_cons, List.mem_singleton, forall_eq_or_imp,
      forall_eq, Timing.instant, List.not_mem_nil, false_implies, implies_true,
      List.Pairwise.nil, and_true, List.mem_nil_iff, IsEmpty.forall_iff] at hsorted
  · exact Or.inl ⟨rfl, hsorted.1.1, hsorted.2⟩
  · exact Or.inr (Or.inl ⟨rfl, hsorted.1.1, hsorted.2⟩)
  · exact Or.inr (Or.inr (Or.inl ⟨rfl, hsorted.1.1, hsorted.2⟩))
  · exact Or.inr (Or.inr (Or.inr (Or.inl ⟨rfl, hsorted.1.1, hsorted.2⟩)))
  · exact Or.inr (Or.inr (Or.inr (Or.inr (Or.inl ⟨rfl, hsorted.1.1, hsorted.2⟩))))
  · exact Or.inr (Or.inr (Or.inr (Or.inr (Or.inr ⟨rfl, hsorted.1.1, hsorted.2⟩))))

/-! ## Lemmas on the race -/

theorem run_returned (get : Transport) (cep : String) (o : Outcome) (evs : List Event) :
    run get cep (.returned o) evs = .returned o := by
  induction evs with
  | nil => rfl
  | cons e es ih => simpa only [run, step] using ih

theorem outcomes_returned (get : Transport) (cep : String) (o : Outcome) (evs : List Event) :
    outcomes get cep (.returned o) evs = [] := by
  induction evs with
  | nil => rfl
  | cons e es ih => simpa only [outcomes, step, produced, Option.toList, List.nil_append] using ih

theorem fetchTask_of_error (get : Transport) (cep : String) (s : Source)
    (h : (s.fetch get cep).2 ≠ none) : fetchTask get cep s = none := by
  cases s
  · simp only [Source.fetch] at h
    simp only [fetchTask, goBrasilAPI]
    rcases hf : fetchFromBrasilAPI get cep with ⟨a, _ | e⟩
    · rw [hf] at h; exact absurd rfl h
    · rfl
  · simp only [Source.fetch] at h
    simp only [fetchTask, goViaCEP]
    rcases hf : fetchFromViaCEP get cep with ⟨a, _ | e⟩
    · rw [hf] at h; exact absurd rfl h
    · rfl

theorem fetchTask_of_success (get : Transport) (cep : String) (s : Source)
    (h : (s.fetch get cep).2 = none) :
    fetchTask get cep s = some { (s.fetch get cep).1 with Source := s.id } := by
  cases s
  · simp only [Source.fetch] at h ⊢
    simp only [fetchTask, goBrasilAPI]
    rcases hf : fetchFromBrasilAPI get cep with ⟨a, _ | e⟩
    · rfl
    · rw [hf] at h; cases h
  · simp only [Source.fetch] at h ⊢
    simp only [fetchTask, goViaCEP]
    rcases hf : fetchFromViaCEP get cep with ⟨a, _ | e⟩
    · rfl
    · rw [hf] at h; cases h

theorem fetchTask_some (get : Transport) (cep : String) (s : Source) (a : Address)
    (h : fetchTask get cep s = some a) :
    (s.fetch get cep).2 = none ∧ a = { (s.fetch get cep).1 with Source := s.id } := by
  by_cases hs : (s.fetch get cep).2 = none
  · rw [fetchTask_of_success get cep s hs] at h
    exact ⟨hs, (Option.some.inj h).symm⟩
  · rw [fetchTask_of_error get cep s hs] at h
    cases h

theorem run_head_success (get : Transport) (cep : String) (s : Source) (a : Address)
    (rest : List Event) (h : fetchTask get cep s = some a) :
    run get cep .selecting (.fetchDone s :: rest) = .returned (.address a) ∧
      outcomes get cep .selecting (.fetchDone s :: rest) = [.address a] := by
  simp only [run, outcomes, produced, step, h, run_returned, outcomes_returned,
    Option.toList, List.append_nil, and_self]

theorem run_head_failure (get : Transport) (cep : String) (s : Source)
    (rest : List Event) (h : fetchTask get cep s = none) :
    run get cep .selecting (.fetchDone s :: rest) = run get cep .selecting rest ∧
      outcomes get cep .selecting (.fetchDone s :: rest)
        = outcomes get cep .selecting rest := by
  simp only [run, outcomes, produced, step, h, Option.toList, List.nil_append, and_self]

theorem run_head_deadline (get : Transport) (cep : String) (rest : List Event) :
    run get cep .selecting (.deadline :: rest) = .returned .timeout ∧
      outcomes get cep .selecting (.deadline :: rest) = [.timeout] := by
  simp only [run, outcomes, produced, step, run_returned, outcomes_returned,
    Option.toList, List.append_nil, and_self]

/-- Along any events the `select` runs at most one branch, and the state records it. -/
theorem run_outcomes (get : Transport) (cep : String) (evs : List Event) :
    (run get cep .selecting evs = .selecting ∧ outcomes get cep .selecting evs = []) ∨
    ∃ o, run get cep .selecting evs = .returned o ∧ outcomes get cep .selecting evs = [o] := by
  induction evs with
  | nil => exact Or.inl ⟨rfl, rfl⟩
  | cons e es ih =>
    cases e with
    | deadline => exact Or.inr ⟨_, run_head_deadline get cep es⟩
    | fetchDone s =>
      cases h : fetchTask get cep s with
      | none =>
        obtain ⟨h1, h2⟩ := run_head_failure get cep s es h
        rw [h1, h2]
        exact ih
      | some a => exact Or.inr ⟨_, run_head_success get cep s a es h⟩

/-- Where a produced outcome comes from. -/
theorem outcome_origin (get : Transport) (cep : String) (evs : List Event) (o : Outcome)
    (h : o ∈ outcomes get cep .selecting evs) :
    (o = .timeout ∧ .deadline ∈ evs) ∨
    ∃ s a, o = .address a ∧ .fetchDone s ∈ evs ∧ fetchTask get cep s = some a := by
  induction evs with
  | nil => simp [outcomes] at h
  | cons e es ih =>
    cases e with
    | deadline =>
      rw [(run_head_deadline get cep es).2] at h
      exact Or.inl ⟨List.mem_singleton.mp h, List.mem_cons_self _ _⟩
    | fetchDone s =>
      cases hs : fetchTask get cep s with
      | none =>
        rw [(run_head_failure get cep s es hs).2] at h
        rcases ih h with ⟨h1, h2⟩ | ⟨s', a, h1, h2, h3⟩
        · exact Or.inl ⟨h1, List.mem_cons_of_mem _ h2⟩
        · exact Or.inr ⟨s', a, h1, List.mem_cons_of_mem _ h2, h3⟩
      | some a =>
        rw [(run_head_success get cep s a es hs).2] at h
        exact Or.inr ⟨s, a, List.mem_singleton.mp h, List.mem_cons_self _ _, hs⟩

/-- With a deadline among the events and only failures before it, the timeout
branch runs. -/
theorem run_timeout (get : Transport) (cep : String) (pre post : List Event)
    (h : ∀ s, .fetchDone s ∈ pre → fetchTask get cep s = none) :
    run get cep .selecting (pre ++ .deadline :: post) = .returned .timeout ∧
      outcomes get cep .selecting (pre ++ .deadline :: post) = [.timeout] := by
  induction pre with
  | nil => exact run_head_deadline get cep post
  | cons e es ih =>
    cases e with
    | deadline => exact run_head_deadline get cep _
    | fetchDone s =>
      have hs := h s (List.mem_cons_self _ _)
      obtain ⟨h1, h2⟩ := run_head_failure get cep s (es ++ .deadline :: post) hs
      rw [List.cons_append, h1, h2]
      exact ih (fun s' hs' => h s' (List.mem_cons_of_mem _ hs'))

/-- With only failures among the events, `main` stays blocked. -/
theorem run_blocked (get : Transport) (cep : String) (evs : List Event)
    (hd : .deadline ∉ evs) (h : ∀ s, .fetchDone s ∈ evs → fetchTask get cep s = none) :
    run get cep .selecting evs = .selecting ∧ outcomes get cep .selecting evs = [] := by
  induction evs with
  | nil => exact ⟨rfl, rfl⟩
  | cons e es ih =>
    cases e with
    | deadline => exact absurd (List.mem_cons_self _ _) hd
    | fetchDone s =>
      have hs := h s (List.mem_cons_self _ _)
      obtain ⟨h1, h2⟩ := run_head_failure get cep s es hs
      rw [h1, h2]
      exact ih (fun hm => hd (List.mem_cons_of_mem _ hm))
        (fun s' hs' => h s' (List.mem_cons_of_mem _ hs'))

theorem main_of_run (get : Transport) (cep prog : String) (rest : List String)
    (evs : List Event) (o : Outcome) (h : run get cep .selecting evs = .returned o) :
    main (prog :: cep :: rest) get evs = some o.print := by
  simp only [main, h]

/-! ## The race: claims C1, C4, C5, C6 -/

theorem id_ne_other (s : Source) : s.id ≠ s.other.id := by
  cases s <;> decide

/-- An event that is strictly the earliest of a run is its first event. -/
theorem isRun_head (tm : Timing) (evs : List Event) (s : Source) (hrun : IsRun tm evs)
    (hfirst : tm.instant (.fetchDone s) < tm.instant (.fetchDone s.other))
    (hdl : tm.instant (.fetchDone s) < tm.instant .deadline) :
    ∃ rest, evs = .fetchDone s :: rest := by
  rcases isRun_cases tm evs hrun with ⟨rfl, h1, h2⟩ | ⟨rfl, h1, h2⟩ | ⟨rfl, h1, h2⟩ |
    ⟨rfl, h1, h2⟩ | ⟨rfl, h1, h2⟩ | ⟨rfl, h1, h2⟩ <;> cases s <;>
    simp only [Timing.instant, Source.other] at hfirst hdl <;>
    first | exact ⟨_, rfl⟩ | omega

/-- C1 (first success wins). In a run that agrees with the instants `tm`, if the fetch
of source `s` succeeds and finishes strictly before the other source's fetch and
strictly before the one-second deadline, the `select` runs the receive branch with
the address of `s`, tagged with the identifier of `s`; it is the only outcome of the
run, and what `main` prints is that address. -/
theorem first_success_wins (get : Transport) (cep : String) (tm : Timing) (evs : List Event)
    (s : Source) (hrun : IsRun tm evs) (hok : (s.fetch get cep).2 = none)
    (hfirst : tm.instant (.fetchDone s) < tm.instant (.fetchDone s.other))
    (hdl : tm.instant (.fetchDone s) < tm.instant .deadline) :
    ∃ a : Address, a = { (s.fetch get cep).1 with Source := s.id } ∧ a.Source = s.id ∧
      a.Source ≠ s.other.id ∧
      run get cep .selecting evs = .returned (.address a) ∧
      outcomes get cep .selecting evs = [.address a] ∧
      ∀ prog rest, main (prog :: cep :: rest) get evs = some (Outcome.address a).print := by
  obtain ⟨tail, rfl⟩ := isRun_head tm evs s hrun hfirst hdl
  have hs := fetchTask_of_success get cep s hok
  obtain ⟨h1, h2⟩ := run_head_success get cep s _ tail hs
  exact ⟨_, rfl, rfl, id_ne_other s, h1, h2,
    fun prog rest => main_of_run get cep prog rest _ _ h1⟩

/-- Witness of C1: BrasilAPI answers after 10 ms, ViaCEP after 500 ms. -/
theorem first_success_wins_witness :
    IsRun ⟨10 * Millisecond, 500 * Millisecond⟩
      [.fetchDone .BrasilAPI, .fetchDone .ViaCEP, .deadline] ∧
    ∃ a : Address, a = { (Source.BrasilAPI.fetch bothAnswer "01001000").1 with
        Source := Source.BrasilAPI.id } ∧ a.Source = Source.BrasilAPI.id ∧
      a.Source ≠ Source.BrasilAPI.other.id ∧
      run bothAnswer "01001000" .selecting [.fetchDone .BrasilAPI, .fetchDone .ViaCEP, .deadline]
        = .returned (.address a) ∧
      outcomes bothAnswer "01001000" .selecting
        [.fetchDone .BrasilAPI, .fetchDone .ViaCEP, .deadline] = [.address a] ∧
      ∀ prog rest, main (prog :: "01001000" :: rest) bothAnswer
        [.fetchDone .BrasilAPI, .fetchDone .ViaCEP, .deadline]
          = some (Outcome.address a).print :=
  ⟨by decide, first_success_wins bothAnswer "01001000" ⟨10 * Millisecond, 500 * Millisecond⟩
    [.fetchDone .BrasilAPI, .fetchDone .ViaCEP, .deadline] .BrasilAPI
    (by decide) (by decide) (by decide) (by decide)⟩

/-- C4 (failures are swallowed and never win). A goroutine whose adapter returned an
error sends nothing: its finishing leaves `main` blocked and produces no outcome; an
address received by the `select` always comes from a source whose adapter returned a
nil error. And in a run that agrees with `tm` where one source fails, at whatever
instant, and the other succeeds strictly before the deadline, the outcome is the
address of the succeeding source, not the timeout. -/
theorem failures_never_win (get : Transport) (cep : String) :
    (∀ s, (s.fetch get cep).2 ≠ none →
      fetchTask get cep s = none ∧
      step get cep .selecting (.fetchDone s) = .selecting ∧
      produced get cep .selecting (.fetchDone s) = none) ∧
    (∀ evs a, .address a ∈ outcomes get cep .selecting evs →
      ∃ s, .fetchDone s ∈ evs ∧ (s.fetch get cep).2 = none) ∧
    (∀ tm evs s, IsRun tm evs → (s.other.fetch get cep).2 ≠ none →
      (s.fetch get cep).2 = none → tm.instant (.fetchDone s) < tm.instant .deadline →
      run get cep .selecting evs
        = .returned (.address { (s.fetch get cep).1 with Source := s.id }) ∧
      outcomes get cep .selecting evs
        = [.address { (s.fetch get cep).1 with Source := s.id }] ∧
      ∀ prog rest, main (prog :: cep :: rest) get evs
        = some (Outcome.address { (s.fetch get cep).1 with Source := s.id }).print) := by
  refine ⟨fun s hs => ?_, fun evs a ha => ?_, fun tm evs s hrun hfail hok hdl => ?_⟩
  · have h := fetchTask_of_error get cep s hs
    simp only [h, step, produced, and_self]
  · rcases outcome_origin get cep evs _ ha with ⟨h1, _⟩ | ⟨s, a', _, h2, h3⟩
    · cases h1
    · exact ⟨s, h2, (fetchTask_some get cep s a' h3).1⟩
  · have hs := fetchTask_of_success get cep s hok
    have ho := fetchTask_of_error get cep s.other hfail
    have key : run get cep .selecting evs
          = .returned (.address { (s.fetch get cep).1 with Source := s.id }) ∧
        outcomes get cep .selecting evs
          = [.address { (s.fetch get cep).1 with Source := s.id }] := by
      rcases isRun_cases tm evs hrun with ⟨rfl, h1, h2⟩ | ⟨rfl, h1, h2⟩ | ⟨rfl, h1, h2⟩ |
        ⟨rfl, h1, h2⟩ | ⟨rfl, h1, h2⟩ | ⟨rfl, h1, h2⟩ <;> cases s <;>
        simp only [Timing.instant, Source.other] at hdl ho <;>
        first
          | omega
          | exact run_head_success get cep _ _ _ hs
          | (obtain ⟨e1, e2⟩ := run_head_failure get cep _ _ ho
             rw [e1, e2]
             exact run_head_success get cep _ _ _ hs)
    exact ⟨key.1, key.2, fun prog rest => main_of_run get cep prog rest _ _ key.1⟩

/-- Witness of C4: BrasilAPI answers 404 at once, ViaCEP answers its not-found body
after 300 ms; the outcome is ViaCEP's (empty) address. -/
theorem failures_never_win_witness :
    (Source.BrasilAPI.fetch notFound "01001000").2 ≠ none ∧
    fetchTask notFound "01001000" .BrasilAPI = none ∧
    IsRun ⟨1 * Millisecond, 300 * Millisecond⟩
      [.fetchDone .BrasilAPI, .fetchDone .ViaCEP, .deadline] ∧
    run notFound "01001000" .selecting [.fetchDone .BrasilAPI, .fetchDone .ViaCEP, .deadline]
      = .returned (.address { (Source.ViaCEP.fetch notFound "01001000").1 with
          Source := Source.ViaCEP.id }) :=
  ⟨by decide,
    ((failures_never_win notFound "01001000").1 .BrasilAPI (by decide)).1,
    by decide,
    ((failures_never_win notFound "01001000").2.2 ⟨1 * Millisecond, 300 * Millisecond⟩
      [.fetchDone .BrasilAPI, .fetchDone .ViaCEP, .deadline] .ViaCEP
      (by decide) (by decide) (by decide) (by decide)).1⟩

/-- C5 (source attribution). The address an adapter returns has an empty `Source`,
on success and on failure alike. The value a goroutine offers on `resultChan` is the
adapter's address with `Source` set to the goroutine's own identifier and every other
field as the adapter returned it; and every address the `select` receives is such a
value of one of the two goroutines. -/
theorem source_attribution (get : Transport) (cep : String) :
    (fetchFromBrasilAPI get cep).1.Source = "" ∧
    (fetchFromViaCEP get cep).1.Source = "" ∧
    (∀ s a, fetchTask get cep s = some a →
      a.Source = s.id ∧ a = { (s.fetch get cep).1 with Source := s.id } ∧
      ∀ af, a.get af = (s.fetch get cep).1.get af) ∧
    (∀ evs a, .address a ∈ outcomes get cep .selecting evs →
      ∃ s, .fetchDone s ∈ evs ∧ a.Source = s.id ∧
        a = { (s.fetch get cep).1 with Source := s.id }) := by
  refine ⟨fetchFromBrasilAPI_source get cep, fetchFromViaCEP_source get cep,
    fun s a h => ?_, fun evs a ha => ?_⟩
  · obtain ⟨_, rfl⟩ := fetchTask_some get cep s a h
    refine ⟨rfl, rfl, fun af => ?_⟩
    cases af <;> rfl
  · rcases outcome_origin get cep evs _ ha with ⟨h1, _⟩ | ⟨s, a', h1, h2, h3⟩
    · cases h1
    · obtain ⟨_, rfl⟩ := fetchTask_some get cep s a' h3
      cases h1
      exact ⟨s, h2, rfl, rfl⟩

/-- Witness of C5: the address ViaCEP's goroutine offers on the sample body. -/
theorem source_attribution_witness :
    fetchTask bothAnswer "01001000" .ViaCEP
      = some { Cep := "01001-000", State := "SP", City := "São Paulo", Neighborhood := "Sé",
               Street := "Praça da Sé", Source := "ViaCEP" } ∧
    (fetchFromViaCEP bothAnswer "01001000").1.Source = "" ∧
    ({ Cep := "01001-000", State := "SP", City := "São Paulo", Neighborhood := "Sé",
       Street := "Praça da Sé", Source := "ViaCEP" } : Address).Source = Source.ViaCEP.id :=
  ⟨by decide, (source_attribution bothAnswer "01001000").2.1,
    ((source_attribution bothAnswer "01001000").2.2.1 .ViaCEP _ (by decide)).1⟩

theorem run_deadline_returned (get : Transport) (cep : String) (evs : List Event)
    (hd : .deadline ∈ evs) : run get cep .selecting evs ≠ .selecting := by
  induction evs with
  | nil => cases hd
  | cons e es ih =>
    cases e with
    | deadline =>
      rw [(run_head_deadline get cep es).1]
      exact fun h => Main.noConfusion h
    | fetchDone s =>
      cases hs : fetchTask get cep s with
      | none =>
        rw [(run_head_failure get cep s es hs).1]
        rcases List.mem_cons.mp hd with hd' | hd'
        · cases hd'
        · exact ih hd'
      | some a =>
        rw [(run_head_success get cep s a es hs).1]
        exact fun h => Main.noConfusion h

/-- C6 (exactly one outcome). Along any events, either `main` is still blocked in
the `select` and nothing was produced, or `main` has returned and exactly one outcome
was produced, an address or the timeout, which is what `main` prints. A run that
holds the deadline event always ends in the second case. After a resolution by
timeout, later events (a late success among them) change nothing and produce no
outcome. -/
theorem exactly_one_outcome (get : Transport) (cep : String) :
    (∀ evs,
      (run get cep .selecting evs = .selecting ∧ outcomes get cep .selecting evs = [] ∧
        ∀ prog rest, main (prog :: cep :: rest) get evs = none) ∨
      (∃ o, run get cep .selecting evs = .returned o ∧
        outcomes get cep .selecting evs = [o] ∧
        ∀ prog rest, main (prog :: cep :: rest) get evs = some o.print)) ∧
    (∀ evs, .deadline ∈ evs →
      ∃ o, outcomes get cep .selecting evs = [o] ∧
        run get cep .selecting evs = .returned o ∧
        ∀ prog rest, main (prog :: cep :: rest) get evs = some o.print) ∧
    (∀ late, run get cep (.returned .timeout) late = .returned .timeout ∧
      outcomes get cep (.returned .timeout) late = []) ∧
    (∀ pre late, run get cep .selecting pre = .returned .timeout →
      run get cep .selecting (pre ++ late) = .returned .timeout ∧
      outcomes get cep .selecting (pre ++ late) = [.timeout]) := by
  refine ⟨fun evs => ?_, fun evs hd => ?_, fun late => ?_, fun pre late hpre => ?_⟩
  · rcases run_outcomes get cep evs with ⟨h1, h2⟩ | ⟨o, h1, h2⟩
    · refine Or.inl ⟨h1, h2, fun prog rest => ?_⟩
      simp only [main, h1]
    · exact Or.inr ⟨o, h1, h2, fun prog rest => main_of_run get cep prog rest _ _ h1⟩
  · rcases run_outcomes get cep evs with ⟨h, _⟩ | ⟨o, h1, h2⟩
    · exact absurd h (run_deadline_returned get cep evs hd)
    · exact ⟨o, h2, h1, fun prog rest => main_of_run get cep prog rest _ _ h1⟩
  · exact ⟨run_returned get cep _ late, outcomes_returned get cep _ late⟩
  · induction pre with
    | nil => cases hpre
    | cons e es ih =>
      cases e with
      | deadline => exact run_head_deadline get cep _
      | fetchDone s =>
        cases hs : fetchTask get cep s with
        | none =>
          rw [(run_head_failure get cep s es hs).1] at hpre
          obtain ⟨h1, h2⟩ := run_head_failure get cep s (es ++ late) hs
          rw [List.cons_append, h1, h2]
          exact ih hpre
        | some a =>
          rw [(run_head_success get cep s a es hs).1] at hpre
          cases hpre

/-- Witness of C6: both sources answer, but only after the deadline. -/
theorem exactly_one_outcome_witness :
    Event.deadline ∈ [Event.deadline, .fetchDone .BrasilAPI, .fetchDone .ViaCEP] ∧
    (∃ o, outcomes bothAnswer "01001000" .selecting
        [.deadline, .fetchDone .BrasilAPI, .fetchDone .ViaCEP] = [o] ∧
      run bothAnswer "01001000" .selecting
        [.deadline, .fetchDone .BrasilAPI, .fetchDone .ViaCEP] = .returned o ∧
      ∀ prog rest, main (prog :: "01001000" :: rest) bothAnswer
        [.deadline, .fetchDone .BrasilAPI, .fetchDone .ViaCEP] = some o.print) ∧
    outcomes bothAnswer "01001000" .selecting
      [.deadline, .fetchDone .BrasilAPI, .fetchDone .ViaCEP] = [.timeout] :=
  ⟨by decide,
    (exactly_one_outcome bothAnswer "01001000").2.1
      [.deadline, .fetchDone .BrasilAPI, .fetchDone .ViaCEP] (by decide),
    by decide⟩

/-! ## The race: claims C7, C8, C10 -/

/-- Counterexample to C7: both sources answer HTTP 500, after 10 ms and after 20 ms.
Once both goroutines have finished, `main` is still blocked in the `select`: nothing
was produced and nothing was printed. The only outcome of the whole run is the
timeout, produced by the deadline event one second in. -/
theorem all_fail_resolves_early_counterexample :
    (fetchFromBrasilAPI bothFail "01001000").2 ≠ none ∧
    (fetchFromViaCEP bothFail "01001000").2 ≠ none ∧
    IsRun ⟨10 * Millisecond, 20 * Millisecond⟩
      [.fetchDone .BrasilAPI, .fetchDone .ViaCEP, .deadline] ∧
    run bothFail "01001000" .selecting [.fetchDone .BrasilAPI, .fetchDone .ViaCEP]
      = .selecting ∧
    outcomes bothFail "01001000" .selecting [.fetchDone .BrasilAPI, .fetchDone .ViaCEP] = [] ∧
    main ["main", "01001000"] bothFail [.fetchDone .BrasilAPI, .fetchDone .ViaCEP] = none ∧
    outcomes bothFail "01001000" .selecting
      [.fetchDone .BrasilAPI, .fetchDone .ViaCEP, .deadline] = [.timeout] := by
  refine ⟨?_, ?_, ?_, ?_, ?_, ?_, ?_⟩ <;> decide

/-- C7 as amended (all sources fail: the race waits for the deadline). When both
adapters return an error, `main` stays blocked in the `select`, with no outcome and no
output, along any events that do not hold the deadline, however many goroutines have
finished; and along any events that hold the deadline the outcome is the timeout and
the output is the timeout message. -/
theorem all_fail_waits_for_deadline (get : Transport) (cep : String)
    (hb : (fetchFromBrasilAPI get cep).2 ≠ none) (hv : (fetchFromViaCEP get cep).2 ≠ none) :
    (∀ evs, .deadline ∉ evs →
      run get cep .selecting evs = .selecting ∧ outcomes get cep .selecting evs = [] ∧
      ∀ prog rest, main (prog :: cep :: rest) get evs = none) ∧
    (∀ evs, .deadline ∈ evs →
      run get cep .selecting evs = .returned .timeout ∧
      outcomes get cep .selecting evs = [.timeout] ∧
      ∀ prog rest, main (prog :: cep :: rest) get evs = some "Erro de timeout\n") := by
  have hfail : ∀ s, fetchTask get cep s = none := by
    intro s
    cases s
    · exact fetchTask_of_error get cep .BrasilAPI hb
    · exact fetchTask_of_error get cep .ViaCEP hv
  constructor
  · intro evs hd
    obtain ⟨h1, h2⟩ := run_blocked get cep evs hd (fun s _ => hfail s)
    refine ⟨h1, h2, fun prog rest => ?_⟩
    simp only [main, h1]
  · intro evs hd
    obtain ⟨pre, post, rfl⟩ := List.append_of_mem hd
    obtain ⟨h1, h2⟩ := run_timeout get cep pre post (fun s _ => hfail s)
    exact ⟨h1, h2, fun prog rest => main_of_run get cep prog rest _ _ h1⟩

/-- Witness of C7 as amended: both sources answer HTTP 500. -/
theorem all_fail_waits_for_deadline_witness :
    (fetchFromBrasilAPI bothFail "01001000").2 ≠ none ∧
    (fetchFromViaCEP bothFail "01001000").2 ≠ none ∧
    (run bothFail "01001000" .selecting [.fetchDone .BrasilAPI, .fetchDone .ViaCEP, .deadline]
        = .returned .timeout ∧
      outcomes bothFail "01001000" .selecting
        [.fetchDone .BrasilAPI, .fetchDone .ViaCEP, .deadline] = [.timeout] ∧
      ∀ prog rest, main (prog :: "01001000" :: rest) bothFail
        [.fetchDone .BrasilAPI, .fetchDone .ViaCEP, .deadline] = some "Erro de timeout\n") :=
  ⟨by decide, by decide,
    (all_fail_waits_for_deadline bothFail "01001000" (by decide) (by decide)).2
      [.fetchDone .BrasilAPI, .fetchDone .ViaCEP, .deadline] (by decide)⟩

/-- C8 (failure modes collapse to one message). If every goroutine that finishes
before the deadline event returned on error, whatever the sources that finish after
it do, the whole output of `main` is the timeout message, with no address line and no
error detail; so two such runs, of whatever transports, postal codes and orders of
events, print the same text. -/
theorem failure_modes_collapse (get1 get2 : Transport) (cep1 cep2 prog1 prog2 : String)
    (rest1 rest2 : List String) (pre1 post1 pre2 post2 : List Event)
    (h1 : ∀ s, .fetchDone s ∈ pre1 → (s.fetch get1 cep1).2 ≠ none)
    (h2 : ∀ s, .fetchDone s ∈ pre2 → (s.fetch get2 cep2).2 ≠ none) :
    main (prog1 :: cep1 :: rest1) get1 (pre1 ++ .deadline :: post1)
      = some "Erro de timeout\n" ∧
    outcomes get1 cep1 .selecting (pre1 ++ .deadline :: post1) = [.timeout] ∧
    main (prog2 :: cep2 :: rest2) get2 (pre2 ++ .deadline :: post2)
      = main (prog1 :: cep1 :: rest1) get1 (pre1 ++ .deadline :: post1) := by
  obtain ⟨r1, o1⟩ := run_timeout get1 cep1 pre1 post1
    (fun s hs => fetchTask_of_error get1 cep1 s (h1 s hs))
  obtain ⟨r2, _⟩ := run_timeout get2 cep2 pre2 post2
    (fun s hs => fetchTask_of_error get2 cep2 s (h2 s hs))
  have m1 := main_of_run get1 cep1 prog1 rest1 _ _ r1
  have m2 := main_of_run get2 cep2 prog2 rest2 _ _ r2
  exact ⟨m1, o1, by rw [m1, m2]⟩

/-- Witness of C8: a run where both sources fail early and a run where both would
succeed, but only after the deadline. -/
theorem failure_modes_collapse_witness :
    main ["main", "01001000"] bothFail
      ([.fetchDone .BrasilAPI, .fetchDone .ViaCEP] ++ .deadline :: [])
      = some "Erro de timeout\n" ∧
    outcomes bothFail "01001000" .selecting
      ([.fetchDone .BrasilAPI, .fetchDone .ViaCEP] ++ .deadline :: []) = [.timeout] ∧
    main ["main", "01001000"] bothAnswer
      ([] ++ .deadline :: [.fetchDone .ViaCEP, .fetchDone .BrasilAPI])
      = main ["main", "01001000"] bothFail
          ([.fetchDone .BrasilAPI, .fetchDone .ViaCEP] ++ .deadline :: []) :=
  failure_modes_collapse bothFail bothAnswer "01001000" "01001000" "main" "main" [] []
    [.fetchDone .BrasilAPI, .fetchDone .ViaCEP] [] [] [.fetchDone .ViaCEP, .fetchDone .BrasilAPI]
    (by intro s; cases s <;> decide) (by intro s; cases s <;> decide)

/-- Counterexample to C10: BrasilAPI answers exactly one second in, and the GET to
ViaCEP fails 5 ms later. The completion times are distinct, yet two runs agree with
these instants, the one where the send is taken first and the one where the timer
is, and they end differently: BrasilAPI's address in one, the timeout in the other. -/
theorem race_deterministic_counterexample :
    tieAtDeadline.brasilAPI ≠ tieAtDeadline.viaCEP ∧
    IsRun tieAtDeadline [.fetchDone .BrasilAPI, .deadline, .fetchDone .ViaCEP] ∧
    IsRun tieAtDeadline [.deadline, .fetchDone .BrasilAPI, .fetchDone .ViaCEP] ∧
    run brasilAPIOnly "01001000" .selecting
        [.fetchDone .BrasilAPI, .deadline, .fetchDone .ViaCEP]
      = .returned (.address
          { Cep := "01001000", State := "SP", City := "São Paulo", Neighborhood := "Sé",
            Street := "Praça da Sé", Source := "BrasilAPI" }) ∧
    run brasilAPIOnly "01001000" .selecting
        [.deadline, .fetchDone .BrasilAPI, .fetchDone .ViaCEP]
      = .returned .timeout ∧
    main ["main", "01001000"] brasilAPIOnly
        [.fetchDone .BrasilAPI, .deadline, .fetchDone .ViaCEP]
      ≠ main ["main", "01001000"] brasilAPIOnly
          [.deadline, .fetchDone .BrasilAPI, .fetchDone .ViaCEP] := by
  refine ⟨?_, ?_, ?_, ?_, ?_, ?_⟩ <;> decide

/-- C10 as amended (determinism of the race). For a fixed transport, postal code and
instants, with the two completion instants distinct and no successful fetch finishing
exactly at the deadline instant, any two runs that agree with the instants end in the
same state, produce the same outcomes and print the same text. -/
theorem race_deterministic (get : Transport) (cep : String) (tm : Timing)
    (evs1 evs2 : List Event) (hrun1 : IsRun tm evs1) (hrun2 : IsRun tm evs2)
    (hne : tm.brasilAPI ≠ tm.viaCEP)
    (hdl : ∀ s, (s.fetch get cep).2 = none → tm.instant (.fetchDone s) ≠ tm.instant .deadline) :
    run get cep .selecting evs1 = run get cep .selecting evs2 ∧
    outcomes get cep .selecting evs1 = outcomes get cep .selecting evs2 ∧
    ∀ prog rest, main (prog :: cep :: rest) get evs1 = main (prog :: cep :: rest) get evs2 := by
  have key : run get cep .selecting evs1 = run get cep .selecting evs2 ∧
      outcomes get cep .selecting evs1 = outcomes get cep .selecting evs2 := by
    have hB : (∃ a, fetchTask get cep .BrasilAPI = some a ∧ tm.brasilAPI ≠ 1 * Second) ∨
        fetchTask get cep .BrasilAPI = none := by
      by_cases h : (Source.BrasilAPI.fetch get cep).2 = none
      · exact Or.inl ⟨_, fetchTask_of_success get cep _ h, hdl _ h⟩
      · exact Or.inr (fetchTask_of_error get cep _ h)
    have hV : (∃ a, fetchTask get cep .ViaCEP = some a ∧ tm.viaCEP ≠ 1 * Second) ∨
        fetchTask get cep .ViaCEP = none := by
      by_cases h : (Source.ViaCEP.fetch get cep).2 = none
      · exact Or.inl ⟨_, fetchTask_of_success get cep _ h, hdl _ h⟩
      · exact Or.inr (fetchTask_of_error get cep _ h)
    rcases hB with ⟨aB, hB, dB⟩ | hB <;> rcases hV with ⟨aV, hV, dV⟩ | hV <;>
      rcases isRun_cases tm evs1 hrun1 with ⟨rfl, p1, p2⟩ | ⟨rfl, p1, p2⟩ | ⟨rfl, p1, p2⟩ |
        ⟨rfl, p1, p2⟩ | ⟨rfl, p1, p2⟩ | ⟨rfl, p1, p2⟩ <;>
      rcases isRun_cases tm evs2 hrun2 with ⟨rfl, q1, q2⟩ | ⟨rfl, q1, q2⟩ | ⟨rfl, q1, q2⟩ |
        ⟨rfl, q1, q2⟩ | ⟨rfl, q1, q2⟩ | ⟨rfl, q1, q2⟩ <;>
      first
        | (exfalso; omega)
        | (simp only [run, outcomes, produced, step, hB, hV, Option.toList, List.nil_append,
            List.append_nil, List.cons_append, and_self])
  refine ⟨key.1, key.2, fun prog rest => ?_⟩
  simp only [main, key.1]

/-- Witness of C10 as amended: BrasilAPI answers after 10 ms, ViaCEP after 500 ms. -/
theorem race_deterministic_witness :
    IsRun ⟨10 * Millisecond, 500 * Millisecond⟩
      [.fetchDone .BrasilAPI, .fetchDone .ViaCEP, .deadline] ∧
    (run bothAnswer "01001000" .selecting [.fetchDone .BrasilAPI, .fetchDone .ViaCEP, .deadline]
        = run bothAnswer "01001000" .selecting
            [.fetchDone .BrasilAPI, .fetchDone .ViaCEP, .deadline] ∧
      outcomes bothAnswer "01001000" .selecting
          [.fetchDone .BrasilAPI, .fetchDone .ViaCEP, .deadline]
        = outcomes bothAnswer "01001000" .selecting
            [.fetchDone .BrasilAPI, .fetchDone .ViaCEP, .deadline] ∧
      ∀ prog rest,
        main (prog :: "01001000" :: rest) bothAnswer
            [.fetchDone .BrasilAPI, .fetchDone .ViaCEP, .deadline]
          = main (prog :: "01001000" :: rest) bothAnswer
              [.fetchDone .BrasilAPI, .fetchDone .ViaCEP, .deadline]) :=
  ⟨by decide,
    race_deterministic bothAnswer "01001000" ⟨10 * Millisecond, 500 * Millisecond⟩ _ _
      (by decide) (by decide) (by decide) (by intro s; cases s <;> decide)⟩

/-! ## Omitted fields: claim C9 -/

theorem decodeMembers_skip {F R : Type} (tags : List (String × F)) (set : F → String → R → R)
    (ms : List (String × JSON)) (acc : R × Option GoError)
    (h : ∀ m ∈ ms, findField tags m.1 = none) :
    decodeMembers tags set ms acc = acc := by
  induction ms with
  | nil => rfl
  | cons x xs ih =>
    obtain ⟨key, v⟩ := x
    obtain ⟨r, saved⟩ := acc
    have hx : findField tags key = none := h (key, v) (List.mem_cons_self _ _)
    simp only [decodeMembers, hx]
    exact ih (fun m hm => h m (List.mem_cons_of_mem _ hm))

theorem decodeMembers_error_kept {F R : Type} (tags : List (String × F))
    (set : F → String → R → R) (ms : List (String × JSON)) (r : R) (e : GoError) :
    (decodeMembers tags set ms (r, some e)).2 = some e := by
  induction ms generalizing r with
  | nil => rfl
  | cons x xs ih =>
    obtain ⟨key, v⟩ := x
    simp only [decodeMembers]
    cases findField tags key with
    | none => exact ih _
    | some f => cases v <;> exact ih _

/-- Decoding an object reports no error exactly when every member that resolves to a
field holds a JSON string or `null`. -/
theorem decodeMembers_noError_iff {F R : Type} (tags : List (String × F))
    (set : F → String → R → R) (ms : List (String × JSON)) (r : R) :
    (decodeMembers tags set ms (r, none)).2 = none ↔
      ∀ m ∈ ms, ∀ f, findField tags m.1 = some f → m.2 = .null ∨ ∃ s, m.2 = .string s := by
  refine ⟨fun h => ?_, decodeMembers_noError tags set ms r⟩
  induction ms generalizing r with
  | nil => intro m hm; cases hm
  | cons x xs ih =>
    obtain ⟨key, v⟩ := x
    simp only [decodeMembers] at h
    cases hf : findField tags key with
    | none =>
      rw [hf] at h
      intro m hm f hm'
      rcases List.mem_cons.mp hm with rfl | hm
      · rw [hf] at hm'; cases hm'
      · exact ih _ h m hm f hm'
    | some g =>
      rw [hf] at h
      cases v with
      | string s =>
        intro m hm f hm'
        rcases List.mem_cons.mp hm with rfl | hm
        · exact Or.inr ⟨s, rfl⟩
        · exact ih _ h m hm f hm'
      | null =>
        intro m hm f hm'
        rcases List.mem_cons.mp hm with rfl | hm
        · exact Or.inl rfl
        · exact ih _ h m hm f hm'
      | bool b =>
        simp only [saveError] at h
        rw [decodeMembers_error_kept] at h
        cases h
      | number n =>
        simp only [saveError] at h
        rw [decodeMembers_error_kept] at h
        cases h
      | array xs =>
        simp only [saveError] at h
        rw [decodeMembers_error_kept] at h
        cases h
      | object kvs =>
        simp only [saveError] at h
        rw [decodeMembers_error_kept] at h
        cases h

/-- Counterexample to C9: ViaCEP answers 200 with the JSON object that holds only
`cep`, as the number 1001000. The body is a well-formed object that omits `uf`,
`localidade`, `bairro` and `logradouro`, yet `json.Unmarshal` reports a type error for
a number met at a string field, the adapter returns that error with the zero address
(lines 134-137), its goroutine sends nothing, and the run ends in the timeout. -/
theorem omitted_fields_not_error_counterexample :
    numericCep (viaCEPURL "01001000") = .ok (okJSON (.object [("cep", .number "1001000")])) ∧
    (okJSON (.object [("cep", .number "1001000")])).StatusCode = StatusOK ∧
    (∀ m ∈ [("cep", JSON.number "1001000")],
      findField viaCEPTags m.1 ≠ findField viaCEPTags "uf" ∧
      findField viaCEPTags m.1 ≠ findField viaCEPTags "localidade" ∧
      findField viaCEPTags m.1 ≠ findField viaCEPTags "bairro" ∧
      findField viaCEPTags m.1 ≠ findField viaCEPTags "logradouro") ∧
    fetchFromViaCEP numericCep "01001000" = ({}, some (.unmarshalType "number" "cep")) ∧
    (fetchFromViaCEP numericCep "01001000").2 ≠ none ∧
    fetchTask numericCep "01001000" .ViaCEP = none ∧
    main ["main", "01001000"] numericCep [.fetchDone .ViaCEP, .fetchDone .BrasilAPI, .deadline]
      = some "Erro de timeout\n" := by
  refine ⟨rfl, rfl, ?_, ?_, ?_, ?_, ?_⟩ <;> decide

/-- C9 as amended (omitted fields are not an error). For each adapter, when the
response has status 200 and its body is a JSON object: the adapter returns a nil
error exactly when every member that resolves to a field of the adapter's struct
holds a JSON string or `null`, so that under this condition no omission is an error;
on a nil error each address field whose struct field no member resolves to is the
empty string, and each address field with a string member under its documented key,
not followed by a member for the same field, is that string. When no member resolves
to any field (as in ViaCEP's not-found body), the adapter returns a nil error with an
all-empty address, the goroutine offers it with its own identifier, and it wins the
race whenever the goroutine is the first to wake `main`. -/
theorem omitted_fields_not_error (get : Transport) (cep : String) :
    (∀ resp ms, get (brasilAPIURL cep) = .ok resp → resp.StatusCode = StatusOK →
      resp.Body = .ok (some (.object ms)) →
      ((fetchFromBrasilAPI get cep).2 = none ↔
        ∀ m ∈ ms, ∀ f, findField brasilAPITags m.1 = some f →
          m.2 = .null ∨ ∃ s, m.2 = .string s) ∧
      ((fetchFromBrasilAPI get cep).2 = none →
        (∀ af, (∀ m ∈ ms, findField brasilAPITags m.1
            ≠ findField brasilAPITags (documentedBrasilAPIKey af)) →
          (fetchFromBrasilAPI get cep).1.get af = "") ∧
        (∀ af pre s post, ms = pre ++ (documentedBrasilAPIKey af, .string s) :: post →
          (∀ m ∈ post, findField brasilAPITags m.1
            ≠ findField brasilAPITags (documentedBrasilAPIKey af)) →
          (fetchFromBrasilAPI get cep).1.get af = s)) ∧
      ((∀ m ∈ ms, findField brasilAPITags m.1 = none) →
        fetchFromBrasilAPI get cep = ({}, none) ∧
        fetchTask get cep .BrasilAPI = some { Source := "BrasilAPI" } ∧
        ∀ evs, run get cep .selecting (.fetchDone .BrasilAPI :: evs)
          = .returned (.address { Source := "BrasilAPI" }))) ∧
    (∀ resp ms, get (viaCEPURL cep) = .ok resp → resp.StatusCode = StatusOK →
      resp.Body = .ok (some (.object ms)) →
      ((fetchFromViaCEP get cep).2 = none ↔
        ∀ m ∈ ms, ∀ f, findField viaCEPTags m.1 = some f →
          m.2 = .null ∨ ∃ s, m.2 = .string s) ∧
      ((fetchFromViaCEP get cep).2 = none →
        (∀ af, (∀ m ∈ ms, findField viaCEPTags m.1
            ≠ findField viaCEPTags (documentedViaCEPKey af)) →
          (fetchFromViaCEP get cep).1.get af = "") ∧
        (∀ af pre s post, ms = pre ++ (documentedViaCEPKey af, .string s) :: post →
          (∀ m ∈ post, findField viaCEPTags m.1
            ≠ findField viaCEPTags (documentedViaCEPKey af)) →
          (fetchFromViaCEP get cep).1.get af = s)) ∧
      ((∀ m ∈ ms, findField viaCEPTags m.1 = none) →
        fetchFromViaCEP get cep = ({}, none) ∧
        fetchTask get cep .ViaCEP = some { Source := "ViaCEP" } ∧
        ∀ evs, run get cep .selecting (.fetchDone .ViaCEP :: evs)
          = .returned (.address { Source := "ViaCEP" }))) := by
  constructor
  · intro resp ms h1 h2 h3
    have hok := fetchFromBrasilAPI_ok get cep resp _ h1 h2 h3
    have hiff : (fetchFromBrasilAPI get cep).2 = none ↔
        (unmarshalBrasilAPI (some (.object ms))).2 = none := by
      rw [hok]
      rcases unmarshalBrasilAPI (some (.object ms)) with ⟨r, _ | e⟩ <;> simp
    refine ⟨hiff.trans (decodeMembers_noError_iff brasilAPITags BrasilAPIResponse.set ms {}),
      fun hsucc => ?_, fun hall => ?_⟩
    · have herr := hiff.mp hsucc
      have h4 : unmarshalBrasilAPI (some (.object ms))
          = ((unmarshalBrasilAPI (some (.object ms))).1, none) := by
        rw [← herr]
      obtain ⟨_, _, d3⟩ := fetchFromBrasilAPI_decoded get cep resp _ _ h1 h2 h3 h4
      refine ⟨fun af hom => ?_, fun af pre s post hms hpost => ?_⟩
      · rw [d3 af]
        exact unmarshalBrasilAPI_omitted af ms hom
      · rw [d3 af, hms]
        exact unmarshalBrasilAPI_present af pre post s hpost
    · have hf : fetchFromBrasilAPI get cep = ({}, none) := by
        rw [hok, unmarshalBrasilAPI_object,
          decodeMembers_skip brasilAPITags BrasilAPIResponse.set ms _ hall]
      have ht : fetchTask get cep .BrasilAPI = some { Source := "BrasilAPI" } := by
        simp only [fetchTask, goBrasilAPI, hf]
      exact ⟨hf, ht, fun evs => (run_head_success get cep .BrasilAPI _ evs ht).1⟩
  · intro resp ms h1 h2 h3
    have hok := fetchFromViaCEP_ok get cep resp _ h1 h2 h3
    have hiff : (fetchFromViaCEP get cep).2 = none ↔
        (unmarshalViaCEP (some (.object ms))).2 = none := by
      rw [hok]
      rcases unmarshalViaCEP (some (.object ms)) with ⟨r, _ | e⟩ <;> simp
    refine ⟨hiff.trans (decodeMembers_noError_iff viaCEPTags ViaCEPResponse.set ms {}),
      fun hsucc => ?_, fun hall => ?_⟩
    · have herr := hiff.mp hsucc
      have h4 : unmarshalViaCEP (some (.object ms))
          = ((unmarshalViaCEP (some (.object ms))).1, none) := by
        rw [← herr]
      obtain ⟨_, _, d3⟩ := fetchFromViaCEP_decoded get cep resp _ _ h1 h2 h3 h4
      refine ⟨fun af hom => ?_, fun af pre s post hms hpost => ?_⟩
      · rw [d3 af]
        exact unmarshalViaCEP_omitted af ms hom
      · rw [d3 af, hms]
        exact unmarshalViaCEP_present af pre post s hpost
    · have hf : fetchFromViaCEP get cep = ({}, none) := by
        rw [hok, unmarshalViaCEP_object,
          decodeMembers_skip viaCEPTags ViaCEPResponse.set ms _ hall]
      have ht : fetchTask get cep .ViaCEP = some { Source := "ViaCEP" } := by
        simp only [fetchTask, goViaCEP, hf]
      exact ⟨hf, ht, fun evs => (run_head_success get cep .ViaCEP _ evs ht).1⟩

/-- Witness of C9 as amended: ViaCEP's not-found body, an object with the one member `erro`,
and a body that holds only `cep` and `uf`. -/
theorem omitted_fields_not_error_witness :
    notFound (viaCEPURL "01001000") = .ok (okJSON (.object [("erro", .bool true)])) ∧
    (okJSON (.object [("erro", .bool true)])).StatusCode = StatusOK ∧
    (∀ m ∈ [("erro", JSON.bool true)], findField viaCEPTags m.1 = none) ∧
    (fetchFromViaCEP notFound "01001000" = ({}, none) ∧
      fetchTask notFound "01001000" .ViaCEP = some { Source := "ViaCEP" } ∧
      ∀ evs, run notFound "01001000" .selecting (.fetchDone .ViaCEP :: evs)
        = .returned (.address { Source := "ViaCEP" })) ∧
    fetchFromViaCEP (twoSources (.error (.transport "timeout"))
        (.ok (okJSON (.object [("cep", .string "01001-000"), ("uf", .string "SP")]))))
        "01001000"
      = ({ Cep := "01001-000", State := "SP" }, none) :=
  ⟨rfl, rfl, by decide,
    ((omitted_fields_not_error notFound "01001000").2
      (okJSON (.object [("erro", .bool true)])) [("erro", .bool true)] rfl rfl rfl).2.2
      (by decide),
    by decide⟩

end Multithreading
